import Mathlib

/-!
# Crunchyroll / AniList proxy: query resolution and field sanitising

A shallow embedding of the pure parts of `src/crunchyroll.js` and `src/anilist.js`:
the similarity score, the two query classifiers, the choice of the best search candidate,
the field sanitisers, and the assembly of the record with the response that carries it.
What the requests answer is an argument (`Upstream`); a rejected promise or a thrown error
is a value of `Thrown`, and a function that can throw returns an `Except`.

Modelling conventions.

* A JavaScript string is the list of its UTF-16 code units (`JSString`); `s.length` and
  `s[i]` of the source are `List.length` and `s[i]?`.
* The similarity score is a JavaScript Number.  It is modelled by the exact rational value
  of the expression `1.0 - d[m][n] / maxLen`; the entries of the matrix are small integers,
  which Numbers represent exactly.
* `parseInt` turns digits into a Number, which holds an integer exactly only up to 2^53; the
  conversion is modelled by `roundBinary64`.
* `String.prototype.toLowerCase` and `toUpperCase` are parameters of the definitions that
  call them.  The other built-ins the source calls (`trim`, `includes`, `startsWith`, the
  regular expressions) are written out on code units.
-/

namespace AnimeProxy

/-- A JavaScript string: the sequence of its UTF-16 code units. -/
abbrev JSString := List Nat

/-- The code units of an ASCII literal. -/
def ascii (s : String) : JSString := s.toList.map Char.toNat

/-! ## `levenshteinRatio` (crunchyroll.js, lines 155-171) -/

/-- The matrix `d` of the source: a list of rows. -/
abbrev Matrix := List (List Nat)

/-- Read `d[i][j]`. -/
def mget (d : Matrix) (i j : Nat) : Nat := (d.getD i []).getD j 0

/-- The assignment `d[i][j] = v`. -/
def mset (d : Matrix) (i j v : Nat) : Matrix := d.set i ((d.getD i []).set j v)

/-- `Array.from(Array(m + 1), () => Array(n + 1).fill(0))`. -/
def zeroMatrix (m n : Nat) : Matrix := List.replicate (m + 1) (List.replicate (n + 1) 0)

/-- `for (let i = 0; i <= m; i++) d[i][0] = i;`. -/
def initCol (m : Nat) (d : Matrix) : Matrix :=
  (List.range (m + 1)).foldl (fun d i => mset d i 0 i) d

/-- `for (let j = 0; j <= n; j++) d[0][j] = j;`. -/
def initRow (n : Nat) (d : Matrix) : Matrix :=
  (List.range (n + 1)).foldl (fun d j => mset d 0 j j) d

/-- The body of the inner loop, lines 165-166. -/
def cellStep (s t : JSString) (j : Nat) (d : Matrix) (i : Nat) : Matrix :=
  let cost := if s[i - 1]? = t[j - 1]? then 0 else 1
  mset d i j (min (min (mget d (i - 1) j + 1) (mget d i (j - 1) + 1)) (mget d (i - 1) (j - 1) + cost))

/-- The inner loop `for (let i = 1; i <= m; i++)` for a fixed column `j`. -/
def fillCol (s t : JSString) (d : Matrix) (j : Nat) : Matrix :=
  (List.range' 1 s.length).foldl (cellStep s t j) d

/-- The outer loop `for (let j = 1; j <= n; j++)`. -/
def fillAll (s t : JSString) (d : Matrix) : Matrix :=
  (List.range' 1 t.length).foldl (fillCol s t) d

/-- The matrix `d` when the loops of lines 158-168 have run. -/
def levMatrix (s t : JSString) : Matrix :=
  fillAll s t (initRow t.length (initCol s.length (zeroMatrix s.length t.length)))

/-- `levenshteinRatio(s, t)`.  The guard `!s || !t` is true exactly of the empty string,
the arguments being strings. -/
def levenshteinRatio (s t : JSString) : ℚ :=
  if s = [] ∨ t = [] then 0
  else
    let m := s.length
    let n := t.length
    let d := levMatrix s t
    let maxLen := max m n
    if maxLen = 0 then 1 else 1 - (mget d m n : ℚ) / (maxLen : ℚ)

/-- The standard Levenshtein edit distance with unit-cost insertion, deletion and
substitution, by the textbook recursion on the heads of the two strings. -/
def lev : List Nat → List Nat → Nat
  | [], ys => ys.length
  | xs, [] => xs.length
  | x :: xs, y :: ys =>
    min (min (lev xs (y :: ys) + 1) (lev (x :: xs) ys + 1)) (lev xs ys + (if x = y then 0 else 1))
termination_by xs ys => xs.length + ys.length

/-! ## Character classes and string helpers -/

/-- The class `\s` of a JavaScript regular expression, which is also the set of code units
that `String.prototype.trim` strips. -/
def isSpace (c : Nat) : Bool :=
  c = 9 || c = 10 || c = 11 || c = 12 || c = 13 || c = 32 || c = 160 || c = 5760 ||
    (8192 ≤ c && c ≤ 8202) || c = 8232 || c = 8233 || c = 8239 || c = 8287 || c = 12288 ||
    c = 65279

/-- The class `\d`. -/
def isDigit (c : Nat) : Bool := 48 ≤ c && c ≤ 57

/-- The class `[A-Z0-9]`. -/
def isUpperAlnum (c : Nat) : Bool := (65 ≤ c && c ≤ 90) || (48 ≤ c && c ≤ 57)

/-- The class `[a-z0-9#]` under the flag `i`. -/
def isEntityChar (c : Nat) : Bool :=
  (97 ≤ c && c ≤ 122) || (65 ≤ c && c ≤ 90) || (48 ≤ c && c ≤ 57) || c = 35

/-- `String.prototype.trim`. -/
def trim (s : JSString) : JSString := (s.dropWhile isSpace).rdropWhile isSpace

/-- `s.includes(needle)`. -/
def includes : JSString → JSString → Bool
  | [], needle => needle.isEmpty
  | c :: cs, needle => needle.isPrefixOf (c :: cs) || includes cs needle

/-- `str.replace(/\s+/g, r)` for a one-character replacement `r`: every maximal run of
white space becomes one `r`.  The flag says that the previous code unit was white space. -/
def replaceSpaceRuns (r : Nat) : Bool → JSString → JSString
  | _, [] => []
  | inRun, c :: cs =>
    if isSpace c then
      if inRun then replaceSpaceRuns r true cs else r :: replaceSpaceRuns r true cs
    else c :: replaceSpaceRuns r false cs

/-! ## `sanitizeString` (crunchyroll.js, lines 57-66) -/

/-- The table `htmlEntities`. -/
def htmlEntities : List (JSString × JSString) :=
  [(ascii "&amp;", ascii "&"), (ascii "&lt;", ascii "<"), (ascii "&gt;", ascii ">"),
   (ascii "&quot;", ascii "\""), (ascii "&#39;", ascii "'"), (ascii "&nbsp;", ascii " ")]

/-- The callback `(entity) => htmlEntities[entity] || entity`. -/
def decodeEntity (entity : JSString) : JSString :=
  match htmlEntities.lookup entity with
  | some r => if r = [] then entity else r
  | none => entity

/-- A match of `[a-z0-9#]+;` at the head of `cs` (the text after an ampersand): the number
of code units it spans.  The run of class characters is maximal because `;` is not in the
class. -/
def entityTail (cs : JSString) : Option Nat :=
  let run := cs.takeWhile isEntityChar
  if run ≠ [] ∧ cs[run.length]? = some 59 then some (run.length + 1) else none

/-- `str.replace(/&[a-z0-9#]+;/gi, decode)`, scanning from the left.  The counter is the
number of code units still to skip because they belong to the match just replaced. -/
def replaceEntities : Nat → JSString → JSString
  | _, [] => []
  | k + 1, _ :: cs => replaceEntities k cs
  | 0, c :: cs =>
    if c = 38 then
      match entityTail cs with
      | some n => decodeEntity (c :: cs.take n) ++ replaceEntities n cs
      | none => c :: replaceEntities 0 cs
    else c :: replaceEntities 0 cs

/-- `sanitizeString(value, defaultValue)` on a string `value`. -/
def sanitizeString (value : JSString) (defaultValue : JSString) : JSString :=
  if value = [] then defaultValue
  else
    let str := replaceEntities 0 value
    let str := trim (replaceSpaceRuns 32 false str)
    if str = [] then defaultValue else str

/-! ## `sanitizeUrl` (crunchyroll.js, lines 74-78) -/

/-- A JavaScript Number. -/
inductive JSNumber where
  | finite (x : ℚ)
  | nan
  | posInf
  | negInf
  deriving DecidableEq

/-- A JavaScript value. -/
inductive JSValue where
  | undefined
  | null
  | bool (b : Bool)
  | number (x : JSNumber)
  | bigint (n : Int)
  | string (s : JSString)
  | array (items : List JSValue)
  | object (fields : List (JSString × JSValue))

/-- The test `url.startsWith('http://') || url.startsWith('https://')`. -/
def beginsHttp (url : JSString) : Bool :=
  (ascii "http://").isPrefixOf url || (ascii "https://").isPrefixOf url

/-- `sanitizeUrl(url)`: only a non-empty string passes the guard
`!url || typeof url !== 'string'`. -/
def sanitizeUrl : JSValue → JSValue
  | .string s =>
    if s = [] then .null
    else
      let url := trim s
      if beginsHttp url then .string url else .null
  | _ => .null

/-! ## The classifier of `fetchSeriesData` (crunchyroll.js, lines 181-205) -/

/-- The test `/^[A-Z0-9]{9}$/.test(query)`. -/
def isDirectId (query : JSString) : Bool := query.length = 9 && query.all isUpperAlnum

/-- A match of `\/series\/([A-Z0-9]{9})` that starts at the head of `s`: its capture. -/
def matchSeriesAt (s : JSString) : Option JSString :=
  if (ascii "/series/").isPrefixOf s then
    let id := (s.drop 8).take 9
    if id.length = 9 ∧ id.all isUpperAlnum = true then some id else none
  else none

/-- `query.match(/\/series\/([A-Z0-9]{9})/)`: the capture of the leftmost match. -/
def matchSeries : JSString → Option JSString
  | [] => none
  | c :: cs =>
    match matchSeriesAt (c :: cs) with
    | some id => some id
    | none => matchSeries cs

/-- The value of `seriesId` when lines 184-203 have run on the sanitised query. -/
def fetchSeriesData.classify (query : JSString) : Option JSString :=
  if isDirectId query then some query
  else if includes query (ascii "crunchyroll.com/") then
    match matchSeries query with
    | some id => some id
    | none => none
  else none

/-- What `fetchSeriesData` does with a query. -/
inductive Route where
  /-- `return { error: "Empty query" }`. -/
  | emptyQuery
  /-- `seriesId` is set by the classifier; the search step is skipped. -/
  | direct (seriesId : JSString)
  /-- The branch `if (!seriesId)`: a search for `term` with limit 3, then the resolver. -/
  | search (term : JSString)
  deriving DecidableEq

/-- Lines 184-205 on the sanitised query. -/
def fetchSeriesData.routeQuery (query : JSString) : Route :=
  match fetchSeriesData.classify query with
  | some seriesId => if seriesId = [] then .search query else .direct seriesId
  | none => .search query

/-- Lines 181-205 on the raw query. -/
def fetchSeriesData.route (rawQuery : JSString) : Route :=
  let query := sanitizeString rawQuery []
  if query = [] then .emptyQuery else fetchSeriesData.routeQuery query

/-! ## The resolver of `fetchSeriesData` (crunchyroll.js, lines 217-250) -/

/-- An item of the search response, with the fields the resolver reads. -/
structure SearchItem where
  id : JSString
  type : JSString
  title : Option JSString
  deriving DecidableEq

/-- `item.title?.toLowerCase() || ""`. -/
def titleLower (toLowerCase : JSString → JSString) (item : SearchItem) : JSString :=
  match item.title with
  | some t => toLowerCase t
  | none => []

/-- The ratio computed for an item at line 225. -/
def itemRatio (toLowerCase : JSString → JSString) (query : JSString) (item : SearchItem) : ℚ :=
  levenshteinRatio (toLowerCase query) (titleLower toLowerCase item)

/-- One round of the loop of lines 222-231 on the pair `(bestRatio, bestCandidate)`. -/
def scanItem (toLowerCase : JSString → JSString) (query : JSString)
    (best : ℚ × Option SearchItem) (item : SearchItem) : ℚ × Option SearchItem :=
  if item.type = ascii "series" then
    let ratio := itemRatio toLowerCase query item
    if ratio > best.1 then (ratio, some item) else best
  else best

/-- The pair `(bestRatio, bestCandidate)` after the loop. -/
def bestMatch (toLowerCase : JSString → JSString) (query : JSString)
    (items : List SearchItem) : ℚ × Option SearchItem :=
  items.foldl (scanItem toLowerCase query) (0, none)

/-- The outcome of the resolver. -/
inductive Resolution where
  /-- `seriesId = bestCandidate.id`. -/
  | accept (seriesId : JSString) (candidate : SearchItem)
  /-- The `else` branch: the page at `BASE_URL/slug` is fetched. -/
  | slugFallback (slug : JSString)
  deriving DecidableEq

/-- `query.toLowerCase().replace(/\s+/g, "-")`. -/
def slugOf (toLowerCase : JSString → JSString) (query : JSString) : JSString :=
  replaceSpaceRuns 45 false (toLowerCase query)

/-- Lines 218-237: the choice between the best candidate and the slug fallback. -/
def fetchSeriesData.resolve (toLowerCase : JSString → JSString) (query : JSString)
    (items : List SearchItem) : Resolution :=
  match bestMatch toLowerCase query items with
  | (bestRatio, some bestCandidate) =>
    if bestRatio ≥ 4 / 5 then .accept bestCandidate.id bestCandidate
    else .slugFallback (slugOf toLowerCase query)
  | (_, none) => .slugFallback (slugOf toLowerCase query)

/-! ## The classifier of `fetchAniListData` (anilist.js, lines 205-219) -/

/-- The test `/^\d+$/.test(query)`. -/
def isNumeric (query : JSString) : Bool := !query.isEmpty && query.all isDigit

/-- The integer that a string of decimal digits denotes. -/
def decimalValue (digits : JSString) : Nat :=
  digits.foldl (fun acc c => 10 * acc + (c - 48)) 0

/-- The number of binary digits of `n`. -/
def bitLengthAux : Nat → Nat → Nat
  | 0, _ => 0
  | fuel + 1, n => if n = 0 then 0 else bitLengthAux fuel (n / 2) + 1

/-- The Number nearest to a natural number: binary64, round to nearest, ties to even.  A
result of more than 1024 binary digits, 2^1024 or more, is `Infinity`. -/
def roundBinary64 (n : Nat) : JSNumber :=
  if n < 2 ^ 53 then .finite n
  else
    let e := bitLengthAux n n - 53
    let q := n / 2 ^ e
    let r := n % 2 ^ e
    let half := 2 ^ e / 2
    let q := if r > half ∨ (r = half ∧ q % 2 = 1) then q + 1 else q
    let rounded := q * 2 ^ e
    if bitLengthAux rounded rounded > 1024 then .posInf else .finite (rounded : ℚ)

/-- `parseInt(text, 10)` on the arguments the source passes, which begin with a decimal
digit: the Number for the integer that the leading digits denote.  (For more than 20
significant digits ECMAScript lets an engine round from the first 20; the model rounds the
exact integer.) -/
def parseInt (text : JSString) : JSNumber :=
  let digits := text.takeWhile isDigit
  if digits = [] then .nan else roundBinary64 (decimalValue digits)

/-- A match of `anilist\.co\/(?:anime|manga)\/(\d+)` at the head of `s`: its capture. -/
def matchAniListAt (s : JSString) : Option JSString :=
  if (ascii "anilist.co/anime/").isPrefixOf s ∨ (ascii "anilist.co/manga/").isPrefixOf s then
    let digits := (s.drop 17).takeWhile isDigit
    if digits = [] then none else some digits
  else none

/-- `query.match(/anilist\.co\/(?:anime|manga)\/(\d+)/)`: the capture of the leftmost
match. -/
def matchAniList : JSString → Option JSString
  | [] => none
  | c :: cs =>
    match matchAniListAt (c :: cs) with
    | some digits => some digits
    | none => matchAniList cs

/-- The object `variables` of the GraphQL request. -/
structure Variables where
  type : JSString
  id : Option JSNumber
  search : Option JSString
  deriving DecidableEq

/-- Lines 206-219: the object `variables` built from the query. -/
def fetchAniListData.requestVariables (toUpperCase : JSString → JSString)
    (query mediaType : JSString) : Variables :=
  let base : Variables := { type := toUpperCase mediaType, id := none, search := none }
  if isNumeric query then { base with id := some (parseInt query) }
  else if includes query (ascii "anilist.co") then
    match matchAniList query with
    | some digits => { base with id := some (parseInt digits) }
    | none => { base with search := some query }
  else { base with search := some query }

/-! ## JavaScript values: truthiness, property reads, `String(value)` -/

/-- Whether a value counts as true in a condition: the values that do not are `undefined`,
`null`, `false`, `0`, `NaN`, `0n` and `""`. -/
def truthy : JSValue → Bool
  | .undefined => false
  | .null => false
  | .bool b => b
  | .number (.finite x) => decide (x ≠ 0)
  | .number .nan => false
  | .number .posInf => true
  | .number .negInf => true
  | .bigint n => decide (n ≠ 0)
  | .string s => !s.isEmpty
  | .array _ => true
  | .object _ => true

/-- What a JavaScript evaluation throws. -/
inductive Thrown where
  /-- A `TypeError`: a property of `null` or `undefined` is read, or a value that cannot be
  iterated is iterated. -/
  | typeError
  /-- An `Error` with a message, thrown by the source or by `fetch`. -/
  | failure (message : JSString)
  deriving DecidableEq

/-- The read `v.key`, for the keys the source reads from parsed JSON (none of them is a
property of a built-in prototype): it throws on `null` and `undefined`, finds the field of an
object, and is `undefined` on every other value. -/
def getProp (v : JSValue) (key : JSString) : Except Thrown JSValue :=
  match v with
  | .undefined => .error .typeError
  | .null => .error .typeError
  | .object fields => .ok ((fields.lookup key).getD .undefined)
  | _ => .ok .undefined

/-- The read `v?.key`. -/
def getPropOpt (v : JSValue) (key : JSString) : Except Thrown JSValue :=
  match v with
  | .undefined => .ok .undefined
  | .null => .ok .undefined
  | _ => getProp v key

/-- `String(value)`: a string is itself; the text of any other value is given by the
parameter. -/
def toJSString (stringOf : JSValue → JSString) : JSValue → JSString
  | .string s => s
  | v => stringOf v

/-- `sanitizeString(value)` on any value, with the guard `if (!value)` and the conversion
`String(value)` of lines 58-59. -/
def sanitizeStringValue (stringOf : JSValue → JSString) (value : JSValue)
    (defaultValue : JSString) : JSString :=
  if truthy value then sanitizeString (toJSString stringOf value) defaultValue else defaultValue

/-- The strings that `for ... of` yields on a string: its code points, a surrogate pair
being one of them. -/
def codePoints : JSString → List JSString
  | [] => []
  | [c] => [[c]]
  | c :: d :: rest =>
    if 55296 ≤ c ∧ c ≤ 56319 ∧ 56320 ≤ d ∧ d ≤ 57343 then [c, d] :: codePoints rest
    else [c] :: codePoints (d :: rest)

/-- The values that `for (const x of v)` runs over: the items of an array, the code points
of a string; no other value of parsed JSON can be iterated. -/
def iterate : JSValue → Except Thrown (List JSValue)
  | .array items => .ok items
  | .string s => .ok ((codePoints s).map JSValue.string)
  | _ => .error .typeError

/-- The value is `null` or `undefined`. -/
def isNullish : JSValue → Bool
  | .undefined => true
  | .null => true
  | _ => false

/-- The read `v.key` on a value that is not `null` or `undefined`: the field of an object,
`undefined` when there is none or the value is not an object. -/
def fieldOf (v : JSValue) (key : JSString) : JSValue :=
  match v with
  | .object fields => (fields.lookup key).getD .undefined
  | _ => .undefined

/-! ## `sanitizeList` (crunchyroll.js, lines 99-102) -/

/-- `sanitizeList(value)`; the array returned is given by the list of its items. -/
def sanitizeList (value : JSValue) : List JSValue :=
  if !truthy value then []
  else
    match value with
    | .array items => items
    | _ => [value]

/-! ## `fetchCategories` (crunchyroll.js, lines 346-358) -/

/-- What the request of `fetchCategories` gives. -/
inductive CategoryResponse where
  /-- `fetch` or `resp.json()` throws. -/
  | failed
  /-- A response with its `ok` flag and its parsed body. -/
  | response (ok : Bool) (body : JSValue)

/-- The callback of `filter`: `item.localization?.title`. -/
def categoryTitle (item : JSValue) : Except Thrown JSValue := do
  let localization ← getProp item (ascii "localization")
  getPropOpt localization (ascii "title")

/-- The `filter` and the `map` of line 356 on one item, the title being read once since both
reads give the same value. -/
def categoryStep (stringOf : JSValue → JSString) (acc : List JSString) (item : JSValue) :
    Except Thrown (List JSString) := do
  let title ← categoryTitle item
  if truthy title then pure (acc ++ [sanitizeStringValue stringOf title []]) else pure acc

/-- Line 356, inside the `try`: `(data.data || []).filter(...).map(...)`.  Only an array has
the method `filter`. -/
def categoryTitles (stringOf : JSValue → JSString) (body : JSValue) :
    Except Thrown (List JSString) := do
  let data ← getProp body (ascii "data")
  match (if truthy data then data else .array []) with
  | .array items => items.foldlM (categoryStep stringOf) []
  | _ => .error .typeError

/-- `fetchCategories(token, seriesId)` as a function of what its request gives: whatever is
thrown inside the `try` is caught and gives the empty list. -/
def fetchCategories (stringOf : JSValue → JSString) : CategoryResponse → List JSString
  | .failed => []
  | .response false _ => []
  | .response true body =>
    match categoryTitles stringOf body with
    | .ok titles => titles
    | .error _ => []

/-! ## The end of `fetchSeriesData` (crunchyroll.js, lines 253-340), the helpers it calls, and
`handleCrunchyroll` -/

/-- Line 281: `typeof cat === 'string' ? cat : (cat.display_value || cat.label || cat.id)`. -/
def genreName (cat : JSValue) : Except Thrown JSValue :=
  match cat with
  | .string _ => .ok cat
  | _ => do
    let displayValue ← getProp cat (ascii "display_value")
    if truthy displayValue then pure displayValue
    else do
      let label ← getProp cat (ascii "label")
      if truthy label then pure label else getProp cat (ascii "id")

/-- The body of the loop of lines 280-283. -/
def genreStep (stringOf : JSValue → JSString) (genres : List JSString) (cat : JSValue) :
    Except Thrown (List JSString) := do
  let name ← genreName cat
  if truthy name then pure (genres ++ [sanitizeStringValue stringOf name []]) else pure genres

/-- Lines 278-284: the list `genres` from the result of `fetchCategories` and the primary
record. -/
def fetchSeriesData.genres (stringOf : JSValue → JSString) (genresRaw : List JSString)
    (fullData : JSValue) : Except Thrown (List JSString) :=
  if genresRaw ≠ [] then .ok genresRaw
  else do
    let tenantCategories ← getProp fullData (ascii "tenant_categories")
    let cats ← iterate (if truthy tenantCategories then tenantCategories else .array [])
    cats.foldlM (genreStep stringOf) genresRaw

/-- `parseInt(text, 10)` on any text: white space at the head is skipped, then one sign is
taken, then the longest run of decimal digits; `NaN` when no digit follows. -/
def parseIntText (text : JSString) : JSNumber :=
  let s := text.dropWhile isSpace
  let negative : Bool := s.head? = some 45
  let s := if s.head? = some 45 ∨ s.head? = some 43 then s.tail else s
  let digits := s.takeWhile isDigit
  if digits = [] then .nan
  else
    match roundBinary64 (decimalValue digits) with
    | .finite x => .finite (if negative then -x else x)
    | .posInf => if negative then .negInf else .posInf
    | n => n

/-- `sanitizeInteger(value, defaultValue)` (lines 87-91). -/
def sanitizeInteger (stringOf : JSValue → JSString) (value : JSValue)
    (defaultValue : JSNumber) : JSNumber :=
  match value with
  | .null => defaultValue
  | .undefined => defaultValue
  | _ =>
    match parseIntText (toJSString stringOf value) with
    | .nan => defaultValue
    | n => n

/-- `Array.prototype.flat()` on the items of an array: the items of each item that is an
array, every other item as it is. -/
def flatOnce (items : List JSValue) : List JSValue :=
  (items.map (fun x => match x with
    | .array ys => ys
    | y => [y])).flatten

/-- `getBestImage(images, typeKey)` (lines 378-386).  Only an array has the method
`flat`. -/
def getBestImage (images : JSValue) (typeKey : JSString) : Except Thrown JSValue :=
  if !truthy images then .ok .null
  else do
    let variants ← getProp images typeKey
    match (if truthy variants then variants else .array []) with
    | .array items =>
      match (flatOnce items).getLast? with
      | some last => do
        let source ← getPropOpt last (ascii "source")
        if truthy source then pure (sanitizeUrl source) else pure .null
      | none => pure .null
    | _ => .error .typeError

/-- An entry of the list `awards` of the record. -/
structure Award where
  text : JSString
  icon_url : JSValue
  is_winner : Bool

/-- The callback of `map` at lines 303-307. -/
def awardOf (stringOf : JSValue → JSString) (award : JSValue) : Except Thrown Award := do
  let text ← getProp award (ascii "text")
  let iconUrl ← getProp award (ascii "icon_url")
  let isWinner ← getProp award (ascii "is_winner")
  pure { text := sanitizeStringValue stringOf text [],
         icon_url := sanitizeUrl iconUrl,
         is_winner := truthy isWinner }

/-- Lines 303-307: `(fullData.awards || []).map(...)`.  Only an array has the method
`map`. -/
def awardsOf (stringOf : JSValue → JSString) (fullData : JSValue) :
    Except Thrown (List Award) := do
  let awards ← getProp fullData (ascii "awards")
  match (if truthy awards then awards else .array []) with
  | .array items => items.mapM (awardOf stringOf)
  | _ => .error .typeError

/-- The callback of `flatMap` at line 271, `d => d.items || []`, with the flattening of its
result: the items of an array, any other value as one item. -/
def pageItems (page : JSValue) : Except Thrown (List JSValue) := do
  let items ← getProp page (ascii "items")
  match (if truthy items then items else .array []) with
  | .array xs => pure xs
  | y => pure [y]

/-- `items.find(i => i.id === seriesId)`: the first item whose `id` is the string
`seriesId`; the items before it have their `id` read. -/
def findById (seriesId : JSString) : List JSValue → Except Thrown (Option JSValue)
  | [] => .ok none
  | i :: rest => do
    let id ← getProp i (ascii "id")
    match id with
    | .string s => if s = seriesId then pure (some i) else findById seriesId rest
    | _ => findById seriesId rest

/-- Lines 269-273: the value of `searchItem`.  Only an array has the method `flatMap`; an
item that is found has an `id`, so it is an object and truthy. -/
def searchItemOf (searchResult : JSValue) (seriesId : JSString) : Except Thrown JSValue := do
  let data ← getPropOpt searchResult (ascii "data")
  if truthy data then
    match data with
    | .array pages => do
      let perPage ← pages.mapM pageItems
      let found ← findById seriesId perPage.flatten
      match found with
      | some item => pure item
      | none => pure (perPage.flatten.head?.getD .undefined)
    | _ => .error .typeError
  else pure .null

/-- What the request of `fetchCopyright` gives. -/
inductive CopyrightResponse where
  /-- `fetch` or `resp.json()` throws. -/
  | failed
  /-- A response with its `ok` flag and its parsed body. -/
  | response (ok : Bool) (body : JSValue)

/-- Line 369, inside the `try`:
`sanitizeString(data.longCopyright || data.shortCopyright, "N/A")`. -/
def copyrightOf (stringOf : JSValue → JSString) (data : JSValue) : Except Thrown JSString := do
  let long ← getProp data (ascii "longCopyright")
  if truthy long then pure (sanitizeStringValue stringOf long (ascii "N/A"))
  else do
    let short ← getProp data (ascii "shortCopyright")
    pure (sanitizeStringValue stringOf short (ascii "N/A"))

/-- `fetchCopyright(seriesId)` (lines 363-373) as a function of what its request gives. -/
def fetchCopyright (stringOf : JSValue → JSString) : CopyrightResponse → JSString
  | .failed => ascii "N/A"
  | .response false _ => ascii "N/A"
  | .response true data =>
    match copyrightOf stringOf data with
    | .ok text => text
    | .error _ => ascii "N/A"

/-- The record that `fetchSeriesData` returns (lines 309-340), its nested objects laid out
flat: `rating_stars`, `rating_count` and `rating_breakdown` are the fields `stars`, `count`
and `breakdown` of `metadata.rating`. -/
structure SeriesRecord where
  id : JSString
  title : JSString
  slug : JSString
  year : JSValue
  description : JSString
  extended_description : JSString
  landscape_poster : JSValue
  portrait_poster : JSValue
  banner_backdrop : JSString
  episode_count : JSNumber
  season_count : JSNumber
  is_simulcast : Bool
  is_dubbed : Bool
  is_subbed : Bool
  audio : List JSValue
  subtitles : List JSValue
  age_rating : List JSValue
  advisory : List JSValue
  rating_stars : JSValue
  rating_count : JSValue
  rating_breakdown : List (JSString × JSString)
  genres : List JSString
  keywords : List JSValue
  release_year : JSValue
  publisher : JSString
  copyright : JSString
  awards : List Award
  powered_by : JSString
  created_by : JSString

/-- What `fetchSeriesData` returns: an object `{ error, details }` or a record. -/
inductive SeriesResult where
  | error (message : JSString) (details : Option Thrown)
  | record (r : SeriesRecord)

/-- Lines 291-301: `starRating` and `reviewCount` for the key `average` and `total`:
`searchItem.rating[key] || "N/A"` when `searchItem?.rating` is truthy, else `"N/A"`. -/
def ratingValue (searchItem : JSValue) (key : JSString) : JSValue :=
  if truthy (fieldOf searchItem (ascii "rating")) then
    if truthy (fieldOf (fieldOf searchItem (ascii "rating")) key) then
      fieldOf (fieldOf searchItem (ascii "rating")) key
    else .string (ascii "N/A")
  else .string (ascii "N/A")

/-- Lines 297-300: the object `ratingBreakdown`, as the list of its keys and values. -/
def ratingBreakdown (stringOf : JSValue → JSString) (searchItem : JSValue) :
    List (JSString × JSString) :=
  if truthy (fieldOf searchItem (ascii "rating")) then
    [ascii "5s", ascii "4s", ascii "3s", ascii "2s", ascii "1s"].filterMap (fun key =>
      if truthy (fieldOf (fieldOf searchItem (ascii "rating")) key) then
        some (key, toJSString stringOf
          (if truthy (fieldOf (fieldOf (fieldOf searchItem (ascii "rating")) key)
              (ascii "displayed"))
           then fieldOf (fieldOf (fieldOf searchItem (ascii "rating")) key) (ascii "displayed")
           else .string (ascii "0")))
      else none)
  else []

/-- The object of lines 309-340 from what has been computed before.  The primary record is
not `null` or `undefined` here, its field `images` having been read, so that its fields are
read with `fieldOf`. -/
def seriesRecord (stringOf : JSValue → JSString) (seriesId : JSString)
    (fullData searchItem : JSValue) (genres : List JSString) (copyrightText : JSString)
    (landscapePoster portraitPoster : JSValue) (awards : List Award) : SeriesRecord :=
  { id := sanitizeString seriesId [],
    title := sanitizeStringValue stringOf (fieldOf fullData (ascii "title")) [],
    slug := sanitizeStringValue stringOf (fieldOf fullData (ascii "slug_title")) [],
    year := fieldOf fullData (ascii "series_launch_year"),
    description := sanitizeStringValue stringOf (fieldOf fullData (ascii "description")) [],
    extended_description :=
      sanitizeStringValue stringOf (fieldOf fullData (ascii "extended_description")) [],
    landscape_poster := landscapePoster,
    portrait_poster := portraitPoster,
    banner_backdrop :=
      ascii "https://imgsrv.crunchyroll.com/cdn-cgi/image/fit=cover,format=auto,quality=100,width=1920/keyart/"
        ++ seriesId ++ ascii "-backdrop_wide",
    episode_count := sanitizeInteger stringOf (fieldOf fullData (ascii "episode_count")) (.finite 0),
    season_count := sanitizeInteger stringOf (fieldOf fullData (ascii "season_count")) (.finite 0),
    is_simulcast := truthy (fieldOf fullData (ascii "is_simulcast")),
    is_dubbed := truthy (fieldOf fullData (ascii "is_dubbed")),
    is_subbed := truthy (fieldOf fullData (ascii "is_subbed")),
    audio := sanitizeList (fieldOf fullData (ascii "audio_locales")),
    subtitles := sanitizeList (fieldOf fullData (ascii "subtitle_locales")),
    age_rating := sanitizeList (fieldOf fullData (ascii "maturity_ratings")),
    advisory := sanitizeList (fieldOf fullData (ascii "content_descriptors")),
    rating_stars := ratingValue searchItem (ascii "average"),
    rating_count := ratingValue searchItem (ascii "total"),
    rating_breakdown := ratingBreakdown stringOf searchItem,
    genres := genres,
    keywords := sanitizeList (fieldOf fullData (ascii "keywords")),
    release_year :=
      if truthy (.number (sanitizeInteger stringOf (fieldOf fullData (ascii "series_launch_year"))
          (.finite 0)))
      then .number (sanitizeInteger stringOf (fieldOf fullData (ascii "series_launch_year"))
          (.finite 0))
      else .null,
    publisher := sanitizeStringValue stringOf (fieldOf fullData (ascii "content_provider")) [],
    copyright := copyrightText,
    awards := awards,
    powered_by := ascii "@Blaze_Updatez",
    created_by := ascii "@Bharath_boy" }

/-- Lines 286-340: the images, the rating, the awards and the record.  The reads of lines
286-288 and 303-307 can throw; those of the rating cannot, `searchItem?.rating` being truthy
where they are made. -/
def fetchSeriesData.assemble (stringOf : JSValue → JSString) (seriesId : JSString)
    (fullData searchItem : JSValue) (genres : List JSString) (copyrightText : JSString) :
    Except Thrown SeriesRecord := do
  let imagesField ← getProp fullData (ascii "images")
  let images := if truthy imagesField then imagesField else .object []
  let landscapePoster ← getBestImage images (ascii "poster_wide")
  let portraitPoster ← getBestImage images (ascii "poster_tall")
  let awards ← awardsOf stringOf fullData
  pure (seriesRecord stringOf seriesId fullData searchItem genres copyrightText landscapePoster
    portraitPoster awards)

/-- Lines 269-340, when the four promises of line 265 have settled: from the search snapshot
`searchResult`, the array `cmsData?.data` (absent when the series response is not `ok` or has
no `data`), the result of `fetchCategories` and the copyright text to the value returned. -/
def fetchSeriesData.finish (stringOf : JSValue → JSString) (seriesId : JSString)
    (searchResult : JSValue) (cmsData : Option (List JSValue)) (genresRaw : List JSString)
    (copyrightText : JSString) : Except Thrown SeriesResult := do
  let searchItem ← searchItemOf searchResult seriesId
  match cmsData with
  | none => pure (.error (ascii "Series details not found") none)
  | some [] => pure (.error (ascii "Series details not found") none)
  | some (fullData :: _) => do
    let genres ← fetchSeriesData.genres stringOf genresRaw fullData
    let record ← fetchSeriesData.assemble stringOf seriesId fullData searchItem genres
      copyrightText
    pure (.record record)

/-- What the requests of a call answer. -/
structure Upstream where
  /-- `loginAnonymously()`: the token, or what it throws. -/
  login : Except Thrown JSString
  /-- The items of the search response for a term (limit 3), after the retry on status 401;
  or what `fetch` or `searchResp.json()` throws. -/
  search : JSString → Except Thrown (List SearchItem)
  /-- The field `url` of the response to the request of a page, redirects followed; or what
  `fetch` throws. -/
  web : JSString → Except Thrown JSString
  /-- The series request for an identifier: the array `cmsData?.data`, absent when the
  response is not `ok` or has no `data`; or what `fetch` or `resp.json()` throws. -/
  cms : JSString → Except Thrown (Option (List JSValue))
  /-- The search for an identifier (limit 1) that the direct route starts at lines 189-192
  and 198-201: the parsed body, `null` when the response is not `ok`; or what `fetch` or
  `r.json()` throws. -/
  snapshot : JSString → Except Thrown JSValue
  /-- The response to the categories request for an identifier. -/
  categories : JSString → CategoryResponse
  /-- The response to the copyright request for an identifier. -/
  copyright : JSString → CopyrightResponse

/-- A match of `\/series\/([A-Z0-9]+)` that starts at the head of `s`: its capture. -/
def matchSeriesLooseAt (s : JSString) : Option JSString :=
  if (ascii "/series/").isPrefixOf s then
    let id := (s.drop 8).takeWhile isUpperAlnum
    if id = [] then none else some id
  else none

/-- `webResp.url.match(/\/series\/([A-Z0-9]+)/)`: the capture of the leftmost match. -/
def matchSeriesLoose : JSString → Option JSString
  | [] => none
  | c :: cs =>
    match matchSeriesLooseAt (c :: cs) with
    | some id => some id
    | none => matchSeriesLoose cs

/-- A search item as a value, with the fields that the typed items carry. -/
def SearchItem.toValue (item : SearchItem) : JSValue :=
  .object [(ascii "id", .string item.id), (ascii "type", .string item.type),
    (ascii "title", match item.title with
      | some t => .string t
      | none => .undefined)]

/-- Line 235: the snapshot `{ data: [{ items: [bestCandidate] }] }` of an accepted
candidate. -/
def candidateSnapshot (bestCandidate : SearchItem) : JSValue :=
  .object [(ascii "data", .array [.object [(ascii "items", .array [bestCandidate.toValue])]])]

/-- Lines 253-340 once `seriesId` is known: the guard of line 253, then `Promise.all` on the
series request and on `initialSearchPromise` (the category and copyright requests never
reject), then lines 269-340.  When both reject the source reports the one that rejects first
in time; the model reports the series request. -/
def fetchSeriesData.details (stringOf : JSValue → JSString) (world : Upstream)
    (seriesId : JSString) (initialSearch : Except Thrown JSValue) : Except Thrown SeriesResult :=
  if seriesId = [] then .ok (.error (ascii "Invalid Series ID or Name") none)
  else do
    let cmsData ← world.cms seriesId
    let searchResult ← initialSearch
    fetchSeriesData.finish stringOf seriesId searchResult cmsData
      (fetchCategories stringOf (world.categories seriesId))
      (fetchCopyright stringOf (world.copyright seriesId))

/-- Lines 237-250: the slug fallback; `initialSearchPromise` stays `null`. -/
def fetchSeriesData.slugFallback (stringOf : JSValue → JSString) (world : Upstream)
    (slug : JSString) : Except Thrown SeriesResult :=
  match world.web (ascii "https://www.crunchyroll.com/" ++ slug) with
  | .error e => .ok (.error (ascii "Series not found") (some e))
  | .ok url =>
    match matchSeriesLoose url with
    | some seriesId =>
      if seriesId = [] then .ok (.error (ascii "Series not found") none)
      else fetchSeriesData.details stringOf world seriesId (.ok .null)
    | none => .ok (.error (ascii "Series not found") none)

/-- `fetchSeriesData(token, query)` as a function of what the requests answer. -/
def fetchSeriesData (toLowerCase : JSString → JSString) (stringOf : JSValue → JSString)
    (world : Upstream) (rawQuery : JSString) : Except Thrown SeriesResult :=
  match fetchSeriesData.route rawQuery with
  | .emptyQuery => .ok (.error (ascii "Empty query") none)
  | .direct seriesId =>
    fetchSeriesData.details stringOf world seriesId (world.snapshot seriesId)
  | .search query =>
    match world.search query with
    | .error e => .error e
    | .ok items =>
      match fetchSeriesData.resolve toLowerCase query items with
      | .accept seriesId bestCandidate =>
        fetchSeriesData.details stringOf world seriesId (.ok (candidateSnapshot bestCandidate))
      | .slugFallback slug => fetchSeriesData.slugFallback stringOf world slug

/-- The body of a response of `handleCrunchyroll`. -/
inductive ResponseBody where
  /-- The usage message. -/
  | usage
  /-- `JSON.stringify(result, null, 2)`. -/
  | result (r : SeriesResult)
  /-- `{ error: e.message }`. -/
  | thrown (e : Thrown)
  /-- `{ error: "Not Found" }`. -/
  | notFound

/-- A response: its status (200 when the source gives none) and its body. -/
structure Response where
  status : Nat
  body : ResponseBody

/-- `handleCrunchyroll(request)` on the path of the request and its parameter `q`. -/
def handleCrunchyroll (toLowerCase : JSString → JSString) (stringOf : JSValue → JSString)
    (world : Upstream) (pathname : JSString) (q : Option JSString) : Response :=
  if pathname = ascii "/" then
    match q with
    | none => { status := 200, body := .usage }
    | some query =>
      if query = [] then { status := 200, body := .usage }
      else
        match world.login with
        | .error e => { status := 500, body := .thrown e }
        | .ok _ =>
          match fetchSeriesData toLowerCase stringOf world query with
          | .ok result => { status := 200, body := .result result }
          | .error e => { status := 500, body := .thrown e }
  else { status := 404, body := .notFound }

/-! ## Definitions used to state and prove the properties -/

/-- The matrix has `m + 1` rows of `n + 1` entries. -/
def Shape (d : Matrix) (m n : Nat) : Prop :=
  d.length = m + 1 ∧ ∀ i, i ≤ m → (d.getD i []).length = n + 1

/-- The distance between the prefixes of lengths `a` and `b`. -/
def prefixLev (s t : JSString) (a b : Nat) : Nat := lev (s.take a) (t.take b)

/-- The entries known to hold prefix distances when `j` columns have been filled. -/
def ColumnsDone (s t : JSString) (j : Nat) (d : Matrix) : Prop :=
  Shape d s.length t.length ∧
    ∀ a c, a ≤ s.length → c ≤ t.length → (c ≤ j ∨ a = 0) → mget d a c = prefixLev s t a c

/-- What the loop of lines 222-231 has established when it has run over `pre`. -/
def ScanState (toLowerCase : JSString → JSString) (query : JSString) (pre : List SearchItem)
    (best : ℚ × Option SearchItem) : Prop :=
  match best.2 with
  | none => best.1 = 0 ∧
      ∀ x ∈ pre, x.type = ascii "series" → itemRatio toLowerCase query x ≤ 0
  | some c => best.1 = itemRatio toLowerCase query c ∧ 0 < best.1 ∧
      ∃ p1 p2, pre = p1 ++ c :: p2 ∧ c.type = ascii "series" ∧
        (∀ x ∈ p1, x.type = ascii "series" →
          itemRatio toLowerCase query x < itemRatio toLowerCase query c) ∧
        (∀ x ∈ p2, x.type = ascii "series" →
          itemRatio toLowerCase query x ≤ itemRatio toLowerCase query c)

/-- The candidate `c` is the first item of type `series` whose ratio is the maximum over
the items of type `series`, and that maximum is at least 0.8. -/
def FirstBest (toLowerCase : JSString → JSString) (query : JSString) (items : List SearchItem)
    (c : SearchItem) : Prop :=
  ∃ pre post, items = pre ++ c :: post ∧ c.type = ascii "series" ∧
    (∀ x ∈ pre, x.type = ascii "series" →
      itemRatio toLowerCase query x < itemRatio toLowerCase query c) ∧
    (∀ x ∈ post, x.type = ascii "series" →
      itemRatio toLowerCase query x ≤ itemRatio toLowerCase query c) ∧
    4 / 5 ≤ itemRatio toLowerCase query c

/-- A stand-in for `String.prototype.toLowerCase` on ASCII text. -/
def asciiToLowerCase (s : JSString) : JSString :=
  s.map (fun c => if 65 ≤ c ∧ c ≤ 90 then c + 32 else c)

/-- The items of type `series` whose lowercased title is the lowercased query. -/
def exactTitle (toLowerCase : JSString → JSString) (query : JSString) (x : SearchItem) : Bool :=
  decide (x.type = ascii "series" ∧ titleLower toLowerCase x = toLowerCase query)

/-- A sample search item that is not of type `series`. -/
def onePieceMovie : SearchItem :=
  { id := ascii "G4PH0WXVJ", type := ascii "movie_listing", title := some (ascii "One Piece") }

/-- A sample search item of type `series`. -/
def onePunchMan : SearchItem :=
  { id := ascii "G6NQ5DWZ6", type := ascii "series", title := some (ascii "One Punch Man") }

/-- A sample search item of type `series`, titled as the sample query is. -/
def onePiece : SearchItem :=
  { id := ascii "GRMG8ZQZR", type := ascii "series", title := some (ascii "One Piece") }

/-- A stand-in for `String.prototype.toUpperCase` on ASCII text. -/
def asciiToUpperCase (s : JSString) : JSString :=
  s.map (fun c => if 97 ≤ c ∧ c ≤ 122 then c - 32 else c)

/-- The text `/series/` followed by the nine characters `id` of the class `[A-Z0-9]` stands
in `query` right after `pre`. -/
def SeriesIdAt (query pre id : JSString) : Prop :=
  ∃ post, query = pre ++ ascii "/series/" ++ id ++ post ∧ id.length = 9 ∧
    ∀ c ∈ id, isUpperAlnum c = true

/-- The pattern as the specification words it: `id` is a path segment of nine characters of
the class `[A-Z0-9]`, with a slash on both sides, that follows `/series`. -/
def SlashDelimitedId (query id : JSString) : Prop :=
  ∃ pre post, query = pre ++ ascii "/series/" ++ id ++ 47 :: post ∧ id.length = 9 ∧
    ∀ c ∈ id, isUpperAlnum c = true

/-- The specification's pattern matches at the head of `s`. -/
def slashDelimitedIdAt (s : JSString) : Bool :=
  (ascii "/series/").isPrefixOf s && ((s.drop 8).take 9).length = 9 &&
    ((s.drop 8).take 9).all isUpperAlnum && (s.drop 17).head? = some 47

/-- White space is normal in `s`: every white-space code unit is a plain space (32) and no
two of them are adjacent; the flag says that the code unit before `s` was white space. -/
def spaceNormal : Bool → JSString → Prop
  | _, [] => True
  | prev, c :: cs =>
    if isSpace c then c = 32 ∧ prev = false ∧ spaceNormal true cs else spaceNormal false cs

/-- The string includes none of the six entities of the table `htmlEntities`. -/
def NoTableEntity (s : JSString) : Prop :=
  ∀ e ∈ htmlEntities, includes s e.1 = false

/-- Whether a string includes an entity of the table can be computed. -/
instance decidableNoTableEntity (s : JSString) : Decidable (NoTableEntity s) := by
  unfold NoTableEntity
  infer_instance

/-- The name of an entry of `tenant_categories` as the specification words it: a string
entry itself, otherwise the first truthy of `display_value`, `label`, `id`. -/
def categoryName (cat : JSValue) : JSValue :=
  match cat with
  | .string s => .string s
  | _ =>
    if truthy (fieldOf cat (ascii "display_value")) then fieldOf cat (ascii "display_value")
    else if truthy (fieldOf cat (ascii "label")) then fieldOf cat (ascii "label")
    else fieldOf cat (ascii "id")

/-- The genres derived from the entries, in order: each name that there is, through
`sanitizeString`; the entries without a name are left out. -/
def derivedGenres (stringOf : JSValue → JSString) (cats : List JSValue) : List JSString :=
  cats.filterMap (fun cat =>
    if truthy (categoryName cat) then some (sanitizeStringValue stringOf (categoryName cat) [])
    else none)

/-- A stand-in for `String(value)` on values that are not strings. -/
def sampleStringOf (_ : JSValue) : JSString := ascii "[object Object]"

/-- Sample entries of `tenant_categories`: a string, an object with a label, an object
without a name, an empty string. -/
def sampleCategories : List JSValue :=
  [.string (ascii "action"), .object [(ascii "label", .string (ascii " sci  fi "))], .object [],
   .string []]

/-- The fields of a sample primary record, with an image and an award. -/
def sampleRecordFields : List (JSString × JSValue) :=
  [(ascii "title", .string (ascii "One Piece")),
   (ascii "tenant_categories", .array sampleCategories),
   (ascii "images", .object [(ascii "poster_wide",
      .array [.array [.object [(ascii "source", .string (ascii "https://img.example/1.jpg"))]]])]),
   (ascii "awards", .array [.object [(ascii "text", .string (ascii "Anime of the Year")),
      (ascii "is_winner", .bool true)]])]

/-- Sample answers: the search finds nothing, the page of the slug is not a series page, the
series request and the search for an identifier are not `ok`, the categories and copyright
requests fail. -/
def emptyUpstream : Upstream :=
  { login := .ok (ascii "token"),
    search := fun _ => .ok [],
    web := fun _ => .ok (ascii "https://www.crunchyroll.com/"),
    cms := fun _ => .ok none,
    snapshot := fun _ => .ok .null,
    categories := fun _ => .failed,
    copyright := fun _ => .failed }

/-- The title of an item of the categories response: `item.localization?.title`, for an item
that is not `null` or `undefined`. -/
def localizedTitle (item : JSValue) : JSValue :=
  if isNullish (fieldOf item (ascii "localization")) then .undefined
  else fieldOf (fieldOf item (ascii "localization")) (ascii "title")

/-- The titles of the items that have one, in order, each through `sanitizeString`. -/
def titledCategories (stringOf : JSValue → JSString) (items : List JSValue) : List JSString :=
  items.filterMap (fun item =>
    if truthy (localizedTitle item) then some (sanitizeStringValue stringOf (localizedTitle item) [])
    else none)

/-- A sample body of the categories response: two items with a title, one without. -/
def sampleCategoryBody : JSValue :=
  .object [(ascii "data", .array
    [.object [(ascii "localization", .object [(ascii "title", .string (ascii "Action"))])],
     .object [(ascii "localization", .null)],
     .object [(ascii "localization", .object [(ascii "title", .string (ascii "Sci&#39;Fi"))])]])]

/-- The record assembled from the sample fields, before its genres are set. -/
def sampleBase : SeriesRecord :=
  seriesRecord sampleStringOf (ascii "GRMG8ZQZR") (.object sampleRecordFields) .null []
    (ascii "N/A")
    (.string (ascii "https://img.example/1.jpg")) .null
    [{ text := ascii "Anime of the Year", icon_url := .null, is_winner := true }]

/-- Sample answers for an identifier: the series request gives the sample record, the search
for the identifier is not `ok`, the categories and copyright requests fail. -/
def sampleUpstream : Upstream :=
  { login := .ok (ascii "token"),
    search := fun _ => .ok [],
    web := fun _ => .ok (ascii "https://www.crunchyroll.com/"),
    cms := fun _ => .ok (some [.object sampleRecordFields]),
    snapshot := fun _ => .ok .null,
    categories := fun _ => .failed,
    copyright := fun _ => .failed }

/-- A sample search snapshot: one page with two items, the second with the identifier
looked for. -/
def sampleSnapshot : JSValue :=
  .object [(ascii "data", .array [.object [(ascii "items", .array
    [.object [(ascii "id", .string (ascii "G6NQ5DWZ6"))],
     .object [(ascii "id", .string (ascii "GRMG8ZQZR")), (ascii "rating", .object [])]])]])]

/-- A sample search item with a rating. -/
def sampleRatedItem : JSValue :=
  .object [(ascii "id", .string (ascii "GRMG8ZQZR")),
    (ascii "rating", .object [(ascii "average", .string (ascii "4.9")),
      (ascii "5s", .object [(ascii "displayed", .string (ascii "1.1K"))]),
      (ascii "4s", .object [])])]

/-! ## The edit distance: recursion at the heads and at the ends -/

theorem lev_nil_left (ys : List Nat) : lev [] ys = ys.length := by
  rw [lev]

theorem lev_nil_right (xs : List Nat) : lev xs [] = xs.length := by
  cases xs <;> simp [lev]

theorem lev_cons_cons (x y : Nat) (xs ys : List Nat) :
    lev (x :: xs) (y :: ys) =
      min (min (lev xs (y :: ys) + 1) (lev (x :: xs) ys + 1))
        (lev xs ys + (if x = y then 0 else 1)) := by
  rw [lev]

/-- The distance obeys the same recurrence at the last characters as at the first. -/
theorem lev_snoc_snoc_aux : ∀ (k : Nat) (xs ys : List Nat), xs.length + ys.length = k →
    ∀ x y : Nat, lev (xs ++ [x]) (ys ++ [y]) =
      min (min (lev xs (ys ++ [y]) + 1) (lev (xs ++ [x]) ys + 1))
        (lev xs ys + (if x = y then 0 else 1)) := by
  intro k
  induction k using Nat.strong_induction_on with
  | _ k ih =>
    intro xs ys hk x y
    cases xs with
    | nil =>
      cases ys with
      | nil => simp [lev_cons_cons, lev_nil_left, lev_nil_right]
      | cons b ys =>
        have h1 := ih ys.length (by simp at hk; omega) [] ys (by simp) x y
        simp only [List.nil_append, List.cons_append] at h1 ⊢
        rw [lev_cons_cons, h1, lev_cons_cons x b]
        simp only [lev_nil_left, List.length_cons, List.length_append, List.length_nil]
        omega
    | cons a xs =>
      cases ys with
      | nil =>
        have h1 := ih xs.length (by simp at hk; omega) xs [] (by simp) x y
        simp only [List.nil_append, List.cons_append] at h1 ⊢
        rw [lev_cons_cons, h1, lev_cons_cons a y]
        simp only [lev_nil_right, List.length_cons, List.length_append, List.length_nil]
        omega
      | cons b ys =>
        simp only [List.length_cons] at hk
        have h1 := ih (xs.length + (ys.length + 1)) (by omega) xs (b :: ys) (by simp) x y
        have h2 := ih (xs.length + 1 + ys.length) (by omega) (a :: xs) ys (by simp) x y
        have h3 := ih (xs.length + ys.length) (by omega) xs ys rfl x y
        simp only [List.cons_append] at h1 h2 h3 ⊢
        rw [lev_cons_cons, h1, h2, h3, lev_cons_cons a b xs (ys ++ [y]),
          lev_cons_cons a b (xs ++ [x]) ys, lev_cons_cons a b xs ys]
        simp only [← Nat.add_min_add_right]
        ac_rfl

theorem lev_snoc_snoc (xs ys : List Nat) (x y : Nat) :
    lev (xs ++ [x]) (ys ++ [y]) =
      min (min (lev xs (ys ++ [y]) + 1) (lev (xs ++ [x]) ys + 1))
        (lev xs ys + (if x = y then 0 else 1)) :=
  lev_snoc_snoc_aux _ xs ys rfl x y

/-- The distance of this file is the edit distance of Mathlib at unit costs. -/
theorem lev_eq_levenshtein (xs ys : List Nat) :
    lev xs ys = levenshtein Levenshtein.defaultCost xs ys := by
  induction xs generalizing ys with
  | nil =>
    rw [lev_nil_left]
    induction ys with
    | nil => simp
    | cons y ys ihy => rw [levenshtein_nil_cons, ← ihy]; simp [Levenshtein.defaultCost]; omega
  | cons x xs ihx =>
    induction ys with
    | nil =>
      rw [lev_nil_right, levenshtein_cons_nil, ← ihx, lev_nil_right]
      simp [Levenshtein.defaultCost]; omega
    | cons y ys ihy =>
      rw [lev_cons_cons, levenshtein_cons_cons, ← ihx, ← ihx, ← ihy]
      simp only [Levenshtein.defaultCost]
      omega

theorem lev_comm (xs ys : List Nat) : lev xs ys = lev ys xs := by
  induction xs generalizing ys with
  | nil => rw [lev_nil_left, lev_nil_right]
  | cons x xs ihx =>
    induction ys with
    | nil => rw [lev_nil_left, lev_nil_right]
    | cons y ys ihy =>
      rw [lev_cons_cons, lev_cons_cons, ihx, ihx, ihy]
      have : (if x = y then 0 else 1) = (if y = x then 0 else 1) := by
        by_cases h : x = y
        · simp [h]
        · simp [h, Ne.symm h]
      omega

theorem lev_self (xs : List Nat) : lev xs xs = 0 := by
  induction xs with
  | nil => rw [lev_nil_left]; rfl
  | cons x xs ih => rw [lev_cons_cons, ih]; simp

theorem lev_le_max (xs ys : List Nat) : lev xs ys ≤ max xs.length ys.length := by
  induction xs generalizing ys with
  | nil => rw [lev_nil_left]; simp
  | cons x xs ihx =>
    cases ys with
    | nil => rw [lev_nil_right]; simp
    | cons y ys =>
      rw [lev_cons_cons]
      have := ihx ys
      simp only [List.length_cons]
      split_ifs <;> omega

/-! ## The matrix and the loops that fill it -/

theorem shape_zeroMatrix (m n : Nat) : Shape (zeroMatrix m n) m n := by
  refine ⟨by simp [zeroMatrix], ?_⟩
  intro i hi
  simp [zeroMatrix, List.getD_eq_getElem?_getD, List.getElem?_replicate, Nat.lt_succ_of_le hi]

theorem shape_mset {d : Matrix} {m n : Nat} (h : Shape d m n) (i j v : Nat) :
    Shape (mset d i j v) m n := by
  refine ⟨by simp [mset, h.1], ?_⟩
  intro a ha
  have hlen := h.2 a ha
  simp only [mset, List.getD_eq_getElem?_getD, List.getElem?_set] at hlen ⊢
  by_cases hia : i = a
  · subst hia
    have : i < d.length := by rw [h.1]; omega
    simp [this] at hlen ⊢
    exact hlen
  · simp [hia]
    exact hlen

theorem mget_mset {d : Matrix} {m n : Nat} (h : Shape d m n) {i j : Nat} (hi : i ≤ m)
    (hj : j ≤ n) (v a b : Nat) :
    mget (mset d i j v) a b = if a = i ∧ b = j then v else mget d a b := by
  have hil : i < d.length := by rw [h.1]; omega
  have hjl := h.2 i hi
  simp only [mget, mset, List.getD_eq_getElem?_getD, List.getElem?_set] at hjl ⊢
  by_cases hia : i = a
  · subst hia
    simp only [hil, if_true, true_and, Option.getD_some]
    by_cases hjb : j = b
    · subst hjb
      have : j < (d[i]?.getD []).length := by rw [hjl]; omega
      simp [this]
    · simp [hjb, Ne.symm hjb]
  · simp [hia, Ne.symm hia]

/-- A loop `for (k = 0; k < n; k++)` keeps an invariant indexed by the number of rounds. -/
theorem foldl_range_inv {β : Type} (f : β → Nat → β) (P : Nat → β → Prop) (n : Nat) (init : β)
    (h0 : P 0 init) (hs : ∀ k b, k < n → P k b → P (k + 1) (f b k)) :
    P n ((List.range n).foldl f init) := by
  induction n with
  | zero => simpa using h0
  | succ n ih =>
    rw [List.range_succ, List.foldl_append]
    simp only [List.foldl_cons, List.foldl_nil]
    exact hs n _ (Nat.lt_succ_self n) (ih (fun k b hk hb => hs k b (Nat.lt_succ_of_lt hk) hb))

/-- A loop `for (k = 1; k <= n; k++)` keeps an invariant indexed by the number of rounds. -/
theorem foldl_range'_inv {β : Type} (f : β → Nat → β) (P : Nat → β → Prop) (n : Nat) (init : β)
    (h0 : P 0 init) (hs : ∀ k b, k < n → P k b → P (k + 1) (f b (k + 1))) :
    P n ((List.range' 1 n).foldl f init) := by
  induction n with
  | zero => simpa using h0
  | succ n ih =>
    rw [List.range'_1_concat, List.foldl_append]
    simp only [List.foldl_cons, List.foldl_nil]
    rw [Nat.add_comm 1 n]
    exact hs n _ (Nat.lt_succ_self n) (ih (fun k b hk hb => hs k b (Nat.lt_succ_of_lt hk) hb))

theorem prefixLev_zero_right (s t : JSString) (a : Nat) (ha : a ≤ s.length) :
    prefixLev s t a 0 = a := by
  simp [prefixLev, lev_nil_right, ha]

theorem prefixLev_zero_left (s t : JSString) (b : Nat) (hb : b ≤ t.length) :
    prefixLev s t 0 b = b := by
  simp [prefixLev, lev_nil_left, hb]

theorem prefixLev_succ_succ (s t : JSString) (a b : Nat) (ha : a < s.length) (hb : b < t.length) :
    prefixLev s t (a + 1) (b + 1) =
      min (min (prefixLev s t a (b + 1) + 1) (prefixLev s t (a + 1) b + 1))
        (prefixLev s t a b + (if s[a]? = t[b]? then 0 else 1)) := by
  have hs : s.take (a + 1) = s.take a ++ [s[a]] := by
    rw [List.take_succ, List.getElem?_eq_getElem ha]; rfl
  have ht : t.take (b + 1) = t.take b ++ [t[b]] := by
    rw [List.take_succ, List.getElem?_eq_getElem hb]; rfl
  have hc : (if s[a]? = t[b]? then 0 else 1) = (if s[a] = t[b] then 0 else 1) := by
    rw [List.getElem?_eq_getElem ha, List.getElem?_eq_getElem hb]
    simp
  unfold prefixLev
  rw [hc, hs, ht, lev_snoc_snoc, ← hs, ← ht]

theorem prefixLev_full (s t : JSString) : prefixLev s t s.length t.length = lev s t := by
  simp [prefixLev]

theorem initCol_spec (m n : Nat) (d : Matrix) (h : Shape d m n) :
    Shape (initCol m d) m n ∧ ∀ a, a ≤ m → mget (initCol m d) a 0 = a := by
  have key := foldl_range_inv (fun d i => mset d i 0 i)
    (fun k d => Shape d m n ∧ ∀ a, a < k → mget d a 0 = a) (m + 1) d ⟨h, by intro a ha; omega⟩
    (by
      rintro k d hk ⟨hsh, hval⟩
      refine ⟨shape_mset hsh _ _ _, ?_⟩
      intro a ha
      rw [mget_mset hsh (by omega) (Nat.zero_le n)]
      by_cases hak : a = k
      · simp [hak]
      · simp [hak]; exact hval a (by omega))
  exact ⟨key.1, fun a ha => key.2 a (by omega)⟩

theorem initRow_spec (m n : Nat) (d : Matrix) (h : Shape d m n)
    (hcol : ∀ a, a ≤ m → mget d a 0 = a) :
    Shape (initRow n d) m n ∧ (∀ a, a ≤ m → mget (initRow n d) a 0 = a) ∧
      ∀ b, b ≤ n → mget (initRow n d) 0 b = b := by
  have key := foldl_range_inv (fun d j => mset d 0 j j)
    (fun k d => Shape d m n ∧ (∀ a, a ≤ m → mget d a 0 = a) ∧ ∀ b, b < k → mget d 0 b = b)
    (n + 1) d ⟨h, hcol, by intro b hb; omega⟩
    (by
      rintro k d hk ⟨hsh, hc, hr⟩
      refine ⟨shape_mset hsh _ _ _, ?_, ?_⟩
      · intro a ha
        rw [mget_mset hsh (Nat.zero_le m) (by omega)]
        by_cases hak : a = 0 ∧ 0 = k
        · simp [hak]
        · simp [hak]; exact hc a ha
      · intro b hb
        rw [mget_mset hsh (Nat.zero_le m) (by omega)]
        by_cases hbk : b = k
        · simp [hbk]
        · simp [hbk]; exact hr b (by omega))
  exact ⟨key.1, key.2.1, fun b hb => key.2.2 b (by omega)⟩

theorem fillCol_spec (s t : JSString) (d : Matrix) (b : Nat) (hb : b < t.length)
    (h : ColumnsDone s t b d) : ColumnsDone s t (b + 1) (fillCol s t d (b + 1)) := by
  have key := foldl_range'_inv (cellStep s t (b + 1))
    (fun k d => Shape d s.length t.length ∧
      ∀ a c, a ≤ s.length → c ≤ t.length → (c ≤ b ∨ a = 0 ∨ (c = b + 1 ∧ a ≤ k)) →
        mget d a c = prefixLev s t a c)
    s.length d
    ⟨h.1, by
      intro a c ha hc hcase
      apply h.2 a c ha hc
      omega⟩
    (by
      rintro k d hk ⟨hsh, hval⟩
      refine ⟨shape_mset hsh _ _ _, ?_⟩
      intro a c ha hc hcase
      unfold cellStep
      simp only [Nat.add_sub_cancel]
      rw [mget_mset hsh (by omega) (by omega)]
      by_cases hnew : a = k + 1 ∧ c = b + 1
      · rw [if_pos hnew, hnew.1, hnew.2, prefixLev_succ_succ s t k b hk hb,
          hval k (b + 1) (by omega) (by omega) (by omega),
          hval (k + 1) b (by omega) (by omega) (by omega),
          hval k b (by omega) (by omega) (by omega)]
      · rw [if_neg hnew]
        apply hval a c ha hc
        omega)
  refine ⟨key.1, ?_⟩
  intro a c ha hc hcase
  apply key.2 a c ha hc
  omega

theorem fillAll_spec (s t : JSString) (d : Matrix) (h : ColumnsDone s t 0 d) :
    ColumnsDone s t t.length (fillAll s t d) :=
  foldl_range'_inv (fillCol s t) (ColumnsDone s t) t.length d h
    (fun k d hk hd => fillCol_spec s t d k hk hd)

/-- The loops leave the edit distance of the two strings in `d[m][n]`. -/
theorem levMatrix_spec (s t : JSString) :
    mget (levMatrix s t) s.length t.length = lev s t := by
  obtain ⟨h1, h2⟩ := initCol_spec s.length t.length _ (shape_zeroMatrix s.length t.length)
  obtain ⟨h3, h4, h5⟩ := initRow_spec s.length t.length _ h1 h2
  have h0 : ColumnsDone s t 0
      (initRow t.length (initCol s.length (zeroMatrix s.length t.length))) := by
    refine ⟨h3, ?_⟩
    intro a c ha hc hcase
    rcases hcase with hc0 | ha0
    · have : c = 0 := by omega
      subst this
      rw [h4 a ha, prefixLev_zero_right s t a ha]
    · subst ha0
      rw [h5 c hc, prefixLev_zero_left s t c hc]
  have := (fillAll_spec s t _ h0).2 s.length t.length (le_refl _) (le_refl _) (Or.inl (le_refl _))
  rw [levMatrix, this, prefixLev_full]

/-! ## The similarity score -/

theorem levenshteinRatio_of_ne {s t : JSString} (hs : s ≠ []) (ht : t ≠ []) :
    levenshteinRatio s t = 1 - (lev s t : ℚ) / ((max s.length t.length : Nat) : ℚ) := by
  have hm : max s.length t.length ≠ 0 := by
    have := List.length_pos.mpr hs
    omega
  unfold levenshteinRatio
  simp only [hs, ht, or_self, if_false, hm, levMatrix_spec]

theorem levenshteinRatio_nil_left (t : JSString) : levenshteinRatio [] t = 0 := by
  simp [levenshteinRatio]

theorem levenshteinRatio_nil_right (s : JSString) : levenshteinRatio s [] = 0 := by
  simp [levenshteinRatio]

theorem levenshteinRatio_formula (s t : JSString) (h : ¬(s = [] ∧ t = [])) :
    levenshteinRatio s t = 1 - (lev s t : ℚ) / ((max s.length t.length : Nat) : ℚ) := by
  by_cases hs : s = []
  · subst hs
    have ht : t ≠ [] := fun ht => h ⟨rfl, ht⟩
    have hl : (t.length : ℚ) ≠ 0 := by
      have := List.length_pos.mpr ht
      exact_mod_cast (by omega : t.length ≠ 0)
    rw [levenshteinRatio_nil_left, lev_nil_left]
    simp [hl]
  · by_cases ht : t = []
    · subst ht
      have hl : (s.length : ℚ) ≠ 0 := by
        have := List.length_pos.mpr hs
        exact_mod_cast (by omega : s.length ≠ 0)
      rw [levenshteinRatio_nil_right, lev_nil_right]
      simp [hl]
    · exact levenshteinRatio_of_ne hs ht

theorem levenshteinRatio_nonneg (s t : JSString) : 0 ≤ levenshteinRatio s t := by
  by_cases hs : s = []
  · subst hs; rw [levenshteinRatio_nil_left]
  · by_cases ht : t = []
    · subst ht; rw [levenshteinRatio_nil_right]
    · rw [levenshteinRatio_of_ne hs ht]
      have h1 : (lev s t : ℚ) ≤ ((max s.length t.length : Nat) : ℚ) := by
        exact_mod_cast lev_le_max s t
      have h2 : (0 : ℚ) < ((max s.length t.length : Nat) : ℚ) := by
        have := List.length_pos.mpr hs
        exact_mod_cast (by omega : 0 < max s.length t.length)
      rw [sub_nonneg, div_le_one h2]
      exact h1

theorem levenshteinRatio_le_one (s t : JSString) : levenshteinRatio s t ≤ 1 := by
  by_cases hs : s = []
  · subst hs; rw [levenshteinRatio_nil_left]; norm_num
  · by_cases ht : t = []
    · subst ht; rw [levenshteinRatio_nil_right]; norm_num
    · rw [levenshteinRatio_of_ne hs ht]
      have : (0 : ℚ) ≤ (lev s t : ℚ) / ((max s.length t.length : Nat) : ℚ) :=
        div_nonneg (Nat.cast_nonneg _) (Nat.cast_nonneg _)
      linarith

theorem lev_eq_zero_iff (xs ys : List Nat) : lev xs ys = 0 ↔ xs = ys := by
  constructor
  · intro h
    induction xs generalizing ys with
    | nil =>
      rw [lev_nil_left] at h
      exact (List.length_eq_zero.mp h).symm
    | cons x xs ih =>
      cases ys with
      | nil => rw [lev_nil_right] at h; simp at h
      | cons y ys =>
        rw [lev_cons_cons] at h
        by_cases hxy : x = y
        · simp only [hxy, if_true, Nat.add_zero] at h
          have : lev xs ys = 0 := by omega
          rw [hxy, ih ys this]
        · simp only [hxy, if_false] at h
          omega
  · rintro rfl
    exact lev_self xs

theorem levenshteinRatio_self {s : JSString} (hs : s ≠ []) : levenshteinRatio s s = 1 := by
  rw [levenshteinRatio_of_ne hs hs, lev_self]
  simp

theorem levenshteinRatio_lt_one_of_ne {s t : JSString} (h : s ≠ t) : levenshteinRatio s t < 1 := by
  by_cases hs : s = []
  · subst hs; rw [levenshteinRatio_nil_left]; norm_num
  · by_cases ht : t = []
    · subst ht; rw [levenshteinRatio_nil_right]; norm_num
    · rw [levenshteinRatio_of_ne hs ht]
      have h1 : (0 : ℚ) < (lev s t : ℚ) := by
        have : lev s t ≠ 0 := fun h0 => h ((lev_eq_zero_iff s t).mp h0)
        exact_mod_cast Nat.pos_of_ne_zero this
      have h2 : (0 : ℚ) < ((max s.length t.length : Nat) : ℚ) := by
        have := List.length_pos.mpr hs
        exact_mod_cast (by omega : 0 < max s.length t.length)
      have := div_pos h1 h2
      linarith

/-- C2: for strings that are not both empty, `levenshteinRatio(s, t)` is
`1 - lev(s, t) / max(len(s), len(t))` with `lev` the standard unit-cost edit distance
(equal to `levenshtein` of Mathlib at its default costs), so the score lies in `[0, 1]`. -/
theorem levenshteinRatio_is_normalized_distance (s t : JSString) (h : ¬(s = [] ∧ t = [])) :
    levenshteinRatio s t = 1 - (lev s t : ℚ) / ((max s.length t.length : Nat) : ℚ) ∧
      lev s t = levenshtein Levenshtein.defaultCost s t ∧
      0 ≤ levenshteinRatio s t ∧ levenshteinRatio s t ≤ 1 :=
  ⟨levenshteinRatio_formula s t h, lev_eq_levenshtein s t, levenshteinRatio_nonneg s t,
    levenshteinRatio_le_one s t⟩

/-- C2 (witness): `kitten` and `sitting` are at distance 3, and their score is `1 - 3/7`. -/
theorem levenshteinRatio_is_normalized_distance_witness :
    ¬(ascii "kitten" = [] ∧ ascii "sitting" = []) ∧
      levenshteinRatio (ascii "kitten") (ascii "sitting") = 4 / 7 ∧
      lev (ascii "kitten") (ascii "sitting") = 3 := by
  have hne : ¬(ascii "kitten" = [] ∧ ascii "sitting" = []) := by decide
  have h := levenshteinRatio_is_normalized_distance (ascii "kitten") (ascii "sitting") hne
  have hd : lev (ascii "kitten") (ascii "sitting") = 3 := by
    rw [← levMatrix_spec]; decide
  refine ⟨hne, ?_, hd⟩
  rw [h.1, hd]
  have : max (ascii "kitten").length (ascii "sitting").length = 7 := by decide
  rw [this]
  norm_num

/-- C4: the similarity score is symmetric, empty strings included. -/
theorem levenshteinRatio_symm (a b : JSString) : levenshteinRatio a b = levenshteinRatio b a := by
  unfold levenshteinRatio
  simp only [levMatrix_spec, lev_comm a b, max_comm a.length b.length, or_comm]

/-- C5 (counterexample): on two empty strings the guard `if (!s || !t) return 0` returns
first, so the score is 0 and the branch `maxLen === 0 ? 1.0` is never reached. -/
theorem levenshteinRatio_empty_empty : levenshteinRatio [] [] = 0 ∧ levenshteinRatio [] [] ≠ 1 := by
  have h : levenshteinRatio [] [] = 0 := levenshteinRatio_nil_left []
  rw [h]
  exact ⟨rfl, by norm_num⟩

/-- C5 (amended): whenever one of the two strings is empty, both being empty included, the
guard of line 156 makes the score 0; the score is 1 exactly when the two strings are equal
and not empty. -/
theorem levenshteinRatio_of_empty (s t : JSString) :
    ((s = [] ∨ t = []) → levenshteinRatio s t = 0) ∧
      (levenshteinRatio s t = 1 ↔ s = t ∧ s ≠ []) := by
  constructor
  · intro h
    unfold levenshteinRatio
    rw [if_pos h]
  · constructor
    · intro h1
      have hst : s = t := by
        by_contra hne
        exact absurd h1 (ne_of_lt (levenshteinRatio_lt_one_of_ne hne))
      refine ⟨hst, ?_⟩
      intro hs
      rw [hs, levenshteinRatio_nil_left] at h1
      exact absurd h1 (by norm_num)
    · rintro ⟨hst, hs⟩
      rw [← hst]
      exact levenshteinRatio_self hs

/-- C5 (witness): the score of two empty strings is 0, and that of the empty string against
`a` is 0 as well. -/
theorem levenshteinRatio_of_empty_witness :
    (([] : JSString) = [] ∨ ([] : JSString) = []) ∧ levenshteinRatio [] [] = 0 ∧
      levenshteinRatio [] (ascii "a") = 0 :=
  ⟨Or.inl rfl, (levenshteinRatio_of_empty [] []).1 (Or.inl rfl),
    (levenshteinRatio_of_empty [] (ascii "a")).1 (Or.inl rfl)⟩

/-! ## The resolver -/

theorem scanState_step (toLowerCase : JSString → JSString) (query : JSString)
    (pre : List SearchItem) (best : ℚ × Option SearchItem) (x : SearchItem)
    (h : ScanState toLowerCase query pre best) :
    ScanState toLowerCase query (pre ++ [x]) (scanItem toLowerCase query best x) := by
  obtain ⟨r, cand⟩ := best
  unfold scanItem
  by_cases hty : x.type = ascii "series"
  · simp only [hty, if_true]
    by_cases hgt : itemRatio toLowerCase query x > r
    · simp only [hgt, if_true]
      cases cand with
      | none =>
        obtain ⟨hr, hall⟩ := h
        simp only at hr
        subst hr
        refine ⟨rfl, hgt, pre, [], rfl, hty, ?_, by simp⟩
        intro y hy hys
        exact lt_of_le_of_lt (hall y hy hys) hgt
      | some c =>
        obtain ⟨hr, hpos, p1, p2, hpre, hc, h1, h2⟩ := h
        simp only at hr hpos
        subst hr
        refine ⟨rfl, lt_trans hpos hgt, pre, [], rfl, hty, ?_, by simp⟩
        intro y hy hys
        rw [hpre] at hy
        rcases List.mem_append.mp hy with hy1 | hy2
        · exact lt_trans (h1 y hy1 hys) hgt
        · rcases List.mem_cons.mp hy2 with rfl | hy3
          · exact hgt
          · exact lt_of_le_of_lt (h2 y hy3 hys) hgt
    · simp only [hgt, if_false]
      have hle : itemRatio toLowerCase query x ≤ r := not_lt.mp hgt
      cases cand with
      | none =>
        obtain ⟨hr, hall⟩ := h
        simp only at hr
        subst hr
        refine ⟨rfl, ?_⟩
        intro y hy hys
        rcases List.mem_append.mp hy with hy1 | hy2
        · exact hall y hy1 hys
        · rw [List.mem_singleton.mp hy2]; exact hle
      | some c =>
        obtain ⟨hr, hpos, p1, p2, hpre, hc, h1, h2⟩ := h
        simp only at hr hpos
        subst hr
        refine ⟨rfl, hpos, p1, p2 ++ [x], by simp [hpre], hc, h1, ?_⟩
        intro y hy hys
        rcases List.mem_append.mp hy with hy1 | hy2
        · exact h2 y hy1 hys
        · rw [List.mem_singleton.mp hy2]; exact hle
  · simp only [hty, if_false]
    cases cand with
    | none =>
      obtain ⟨hr, hall⟩ := h
      refine ⟨hr, ?_⟩
      intro y hy hys
      rcases List.mem_append.mp hy with hy1 | hy2
      · exact hall y hy1 hys
      · rw [List.mem_singleton.mp hy2] at hys; exact absurd hys hty
    | some c =>
      obtain ⟨hr, hpos, p1, p2, hpre, hc, h1, h2⟩ := h
      refine ⟨hr, hpos, p1, p2 ++ [x], by simp [hpre], hc, h1, ?_⟩
      intro y hy hys
      rcases List.mem_append.mp hy with hy1 | hy2
      · exact h2 y hy1 hys
      · rw [List.mem_singleton.mp hy2] at hys; exact absurd hys hty

theorem scanState_bestMatch (toLowerCase : JSString → JSString) (query : JSString)
    (items : List SearchItem) :
    ScanState toLowerCase query items (bestMatch toLowerCase query items) := by
  unfold bestMatch
  induction items using List.reverseRecOn with
  | nil => exact ⟨rfl, by simp⟩
  | append_singleton pre x ih =>
    rw [List.foldl_append]
    exact scanState_step toLowerCase query pre _ x ih

theorem first_max_unique (score : SearchItem → ℚ) (good : SearchItem → Prop)
    {p1 p2 pre post : List SearchItem} {c1 c2 : SearchItem}
    (heq : p1 ++ c1 :: p2 = pre ++ c2 :: post) (hc1 : good c1) (hc2 : good c2)
    (h1l : ∀ x ∈ p1, good x → score x < score c1) (h1r : ∀ x ∈ p2, good x → score x ≤ score c1)
    (h2l : ∀ x ∈ pre, good x → score x < score c2)
    (h2r : ∀ x ∈ post, good x → score x ≤ score c2) : c1 = c2 := by
  rcases List.append_eq_append_iff.mp heq with ⟨a, hpre, hrest⟩ | ⟨a, hp1, hrest⟩
  · cases a with
    | nil => exact (List.cons.inj hrest).1
    | cons y a =>
      simp only [List.cons_append, List.cons.injEq] at hrest
      obtain ⟨hy, hp2⟩ := hrest
      subst hy
      have hlt := h2l c1 (by rw [hpre]; simp) hc1
      have hle := h1r c2 (by rw [hp2]; simp) hc2
      exact absurd hlt (not_lt.mpr hle)
  · cases a with
    | nil => exact ((List.cons.inj hrest).1).symm
    | cons y a =>
      simp only [List.cons_append, List.cons.injEq] at hrest
      obtain ⟨hy, hpost⟩ := hrest
      subst hy
      have hlt := h1l c2 (by rw [hp1]; simp) hc2
      have hle := h2r c1 (by rw [hpost]; simp) hc1
      exact absurd hlt (not_lt.mpr hle)

theorem resolve_accept_iff (toLowerCase : JSString → JSString) (query : JSString)
    (items : List SearchItem) (c : SearchItem) :
    fetchSeriesData.resolve toLowerCase query items = .accept c.id c ↔
      FirstBest toLowerCase query items c := by
  have hst := scanState_bestMatch toLowerCase query items
  unfold fetchSeriesData.resolve
  generalize bestMatch toLowerCase query items = best at hst
  obtain ⟨r, cand⟩ := best
  cases cand with
  | none =>
    obtain ⟨-, hall⟩ := hst
    simp only
    constructor
    · intro h; cases h
    · rintro ⟨pre, post, hitems, hc, -, -, hge⟩
      have := hall c (by rw [hitems]; simp) hc
      exact absurd (le_trans hge this) (by norm_num)
  | some b =>
    obtain ⟨hr, hpos, p1, p2, hitems, hb, h1, h2⟩ := hst
    simp only at hr hpos ⊢
    subst hr
    constructor
    · intro h
      by_cases hge : itemRatio toLowerCase query b ≥ 4 / 5
      · rw [if_pos hge] at h
        have hbc : b = c := by injection h
        subst hbc
        exact ⟨p1, p2, hitems, hb, h1, h2, hge⟩
      · rw [if_neg hge] at h
        cases h
    · rintro ⟨pre, post, hitems2, hc, h3, h4, hge⟩
      have hbc : b = c :=
        first_max_unique (itemRatio toLowerCase query) (fun x => x.type = ascii "series")
          (hitems.symm.trans hitems2) hb hc h1 h2 h3 h4
      subst hbc
      rw [if_pos hge]

theorem resolve_accept_or_fallback (toLowerCase : JSString → JSString) (query : JSString)
    (items : List SearchItem) :
    (∃ c, fetchSeriesData.resolve toLowerCase query items = .accept c.id c) ∨
      fetchSeriesData.resolve toLowerCase query items = .slugFallback (slugOf toLowerCase query) := by
  unfold fetchSeriesData.resolve
  obtain ⟨r, cand⟩ := bestMatch toLowerCase query items
  cases cand with
  | none => exact Or.inr rfl
  | some b =>
    simp only
    by_cases hge : r ≥ 4 / 5
    · rw [if_pos hge]; exact Or.inl ⟨b, rfl⟩
    · rw [if_neg hge]; exact Or.inr rfl

/-- C1: the resolver accepts `c` (`seriesId = c.id`) exactly when `c` is the first item
of type `series` whose ratio against the lowercased query is the maximum over the items
of type `series` and that maximum is at least 0.8; in every other case, an empty list
included, it takes the slug fallback. -/
theorem resolve_accepts_first_best (toLowerCase : JSString → JSString) (query : JSString)
    (items : List SearchItem) :
    (∀ c, fetchSeriesData.resolve toLowerCase query items = .accept c.id c ↔
        FirstBest toLowerCase query items c) ∧
      ((¬∃ c, FirstBest toLowerCase query items c) →
        fetchSeriesData.resolve toLowerCase query items =
          .slugFallback (slugOf toLowerCase query)) ∧
      fetchSeriesData.resolve toLowerCase query [] = .slugFallback (slugOf toLowerCase query) := by
  refine ⟨resolve_accept_iff toLowerCase query items, ?_, rfl⟩
  intro hno
  rcases resolve_accept_or_fallback toLowerCase query items with ⟨c, hc⟩ | h
  · exact absurd ⟨c, (resolve_accept_iff toLowerCase query items c).mp hc⟩ hno
  · exact h

/-- C1 (witness): a list whose only item is not of type `series` has no best candidate, and
the resolver takes the slug fallback. -/
theorem resolve_accepts_first_best_witness :
    (¬∃ c, FirstBest asciiToLowerCase (ascii "One Piece") [onePieceMovie] c) ∧
      fetchSeriesData.resolve asciiToLowerCase (ascii "One Piece") [onePieceMovie] =
        .slugFallback (slugOf asciiToLowerCase (ascii "One Piece")) := by
  have hno : ¬∃ c, FirstBest asciiToLowerCase (ascii "One Piece") [onePieceMovie] c := by
    rintro ⟨c, pre, post, hitems, hc, -⟩
    have hmem : c ∈ [onePieceMovie] := by
      rw [hitems]; simp
    rw [List.mem_singleton] at hmem
    subst hmem
    revert hc
    decide
  exact ⟨hno, (resolve_accepts_first_best asciiToLowerCase (ascii "One Piece") _).2.1 hno⟩

theorem exact_title_first_best (toLowerCase : JSString → JSString) (query : JSString)
    (items : List SearchItem) (c : SearchItem) (hq : toLowerCase query ≠ [])
    (hfind : items.find? (exactTitle toLowerCase query) = some c) :
    itemRatio toLowerCase query c = 1 ∧ FirstBest toLowerCase query items c := by
  obtain ⟨hpc, pre, post, hitems, hpre⟩ := List.find?_eq_some.mp hfind
  simp only [exactTitle, decide_eq_true_eq] at hpc
  have hone : itemRatio toLowerCase query c = 1 := by
    unfold itemRatio
    rw [hpc.2]
    exact levenshteinRatio_self hq
  refine ⟨hone, pre, post, hitems, hpc.1, ?_, ?_, ?_⟩
  · intro x hx hxs
    have hnp := hpre x hx
    simp only [exactTitle, Bool.not_eq_true', decide_eq_false_iff_not, not_and] at hnp
    rw [hone]
    unfold itemRatio
    exact levenshteinRatio_lt_one_of_ne (fun h => hnp hxs h.symm)
  · intro x _ _
    rw [hone]
    exact levenshteinRatio_le_one _ _
  · rw [hone]; norm_num

/-- C3: when the query is not empty and some item of type `series` has a lowercased title
equal to the lowercased query, that item scores exactly 1 and the resolver accepts the first
such item of the list, whatever the other candidates are. -/
theorem resolve_exact_title (toLowerCase : JSString → JSString) (query : JSString)
    (items : List SearchItem) (item : SearchItem) (hq : query ≠ [])
    (hlower : ∀ s : JSString, s ≠ [] → toLowerCase s ≠ []) (hmem : item ∈ items)
    (htype : item.type = ascii "series")
    (htitle : titleLower toLowerCase item = toLowerCase query) :
    itemRatio toLowerCase query item = 1 ∧
      ∃ c, items.find? (exactTitle toLowerCase query) = some c ∧
        fetchSeriesData.resolve toLowerCase query items = .accept c.id c := by
  have hql := hlower query hq
  refine ⟨?_, ?_⟩
  · unfold itemRatio
    rw [htitle]
    exact levenshteinRatio_self hql
  · have hsome : (items.find? (exactTitle toLowerCase query)).isSome := by
      rw [List.find?_isSome]
      exact ⟨item, hmem, by simp [exactTitle, htype, htitle]⟩
    obtain ⟨c, hc⟩ := Option.isSome_iff_exists.mp hsome
    exact ⟨c, hc, (resolve_accept_iff toLowerCase query items c).mpr
      (exact_title_first_best toLowerCase query items c hql hc).2⟩

theorem asciiToLowerCase_ne_nil (s : JSString) (h : s ≠ []) : asciiToLowerCase s ≠ [] := by
  simpa [asciiToLowerCase] using h

/-- C3 (witness): for the query `One Piece` and the candidates `One Punch Man`, `One Piece`,
the second scores 1 and is accepted. -/
theorem resolve_exact_title_witness :
    itemRatio asciiToLowerCase (ascii "One Piece") onePiece = 1 ∧
      ∃ c, [onePunchMan, onePiece].find? (exactTitle asciiToLowerCase (ascii "One Piece")) = some c ∧
        fetchSeriesData.resolve asciiToLowerCase (ascii "One Piece") [onePunchMan, onePiece] =
          .accept c.id c :=
  resolve_exact_title asciiToLowerCase (ascii "One Piece") [onePunchMan, onePiece] onePiece
    (by decide) asciiToLowerCase_ne_nil (by decide) (by decide) (by decide)

/-! ## The classifier of fetchAniListData -/

theorem roundBinary64_of_le (n : Nat) (h : n ≤ 2 ^ 53) : roundBinary64 n = .finite n := by
  unfold roundBinary64
  by_cases hlt : n < 2 ^ 53
  · rw [if_pos hlt]
  · have hn : n = 2 ^ 53 := by omega
    subst hn
    rw [if_neg hlt]
    have hb : bitLengthAux (2 ^ 53) (2 ^ 53) = 54 := by decide
    simp only [hb]
    have h1 : ¬(2 ^ 53 % 2 ^ (54 - 53) > 2 ^ (54 - 53) / 2 ∨
        2 ^ 53 % 2 ^ (54 - 53) = 2 ^ (54 - 53) / 2 ∧ 2 ^ 53 / 2 ^ (54 - 53) % 2 = 1) := by decide
    rw [if_neg h1]
    have h2 : 2 ^ 53 / 2 ^ (54 - 53) * 2 ^ (54 - 53) = 2 ^ 53 := by decide
    rw [h2]
    have h3 : ¬(bitLengthAux (2 ^ 53) (2 ^ 53) > 1024) := by decide
    rw [if_neg h3]

theorem roundBinary64_sample : roundBinary64 9007199254740993 = .finite 9007199254740992 := by
  unfold roundBinary64
  rw [if_neg (by decide)]
  have hb : bitLengthAux 9007199254740993 9007199254740993 = 54 := by decide
  simp only [hb]
  have h1 : ¬(9007199254740993 % 2 ^ (54 - 53) > 2 ^ (54 - 53) / 2 ∨
      9007199254740993 % 2 ^ (54 - 53) = 2 ^ (54 - 53) / 2 ∧
        9007199254740993 / 2 ^ (54 - 53) % 2 = 1) := by decide
  rw [if_neg h1]
  have h2 : 9007199254740993 / 2 ^ (54 - 53) * 2 ^ (54 - 53) = 9007199254740992 := by decide
  rw [h2]
  have h3 : ¬(bitLengthAux 9007199254740992 9007199254740992 > 1024) := by decide
  rw [if_neg h3]
  norm_num

theorem takeWhile_isDigit_of_all (q : JSString) (h : q.all isDigit = true) :
    q.takeWhile isDigit = q := by
  rw [List.takeWhile_eq_self_iff]
  intro x hx
  exact List.all_eq_true.mp h x hx

theorem parseInt_of_isNumeric (q : JSString) (h : isNumeric q = true) :
    parseInt q = roundBinary64 (decimalValue q) := by
  simp only [isNumeric, Bool.and_eq_true, Bool.not_eq_true', List.isEmpty_eq_false] at h
  unfold parseInt
  simp only [takeWhile_isDigit_of_all q h.2]
  rw [if_neg]
  intro hq
  exact h.1 (by simp [hq])

/-- C6 (amended): for a non-empty query of decimal digits the variables carry no search
term and carry as `id` the Number nearest to the decimal value of the query, which is that
value itself whenever it is at most 2^53. -/
theorem numeric_query_is_id_lookup (toUpperCase : JSString → JSString)
    (query mediaType : JSString) (h : isNumeric query = true) :
    (fetchAniListData.requestVariables toUpperCase query mediaType).search = none ∧
      (fetchAniListData.requestVariables toUpperCase query mediaType).id =
        some (roundBinary64 (decimalValue query)) ∧
      (decimalValue query ≤ 2 ^ 53 →
        (fetchAniListData.requestVariables toUpperCase query mediaType).id =
          some (.finite (decimalValue query))) := by
  have hv : fetchAniListData.requestVariables toUpperCase query mediaType =
      { type := toUpperCase mediaType, id := some (roundBinary64 (decimalValue query)),
        search := none } := by
    unfold fetchAniListData.requestVariables
    simp only [h, if_true, parseInt_of_isNumeric query h]
  rw [hv]
  refine ⟨rfl, rfl, ?_⟩
  intro hle
  simp only [roundBinary64_of_le _ hle]

/-- C6 (witness): the query `21` yields `id` 21 and no search term. -/
theorem numeric_query_is_id_lookup_witness :
    isNumeric (ascii "21") = true ∧ decimalValue (ascii "21") ≤ 2 ^ 53 ∧
      (fetchAniListData.requestVariables asciiToUpperCase (ascii "21") (ascii "anime")).search =
        none ∧
      (fetchAniListData.requestVariables asciiToUpperCase (ascii "21") (ascii "anime")).id =
        some (.finite 21) := by
  have hnum : isNumeric (ascii "21") = true := by decide
  have hle : decimalValue (ascii "21") ≤ 2 ^ 53 := by decide
  have h := numeric_query_is_id_lookup asciiToUpperCase (ascii "21") (ascii "anime") hnum
  refine ⟨hnum, hle, h.1, ?_⟩
  rw [h.2.2 hle]
  have : decimalValue (ascii "21") = 21 := by decide
  rw [this]
  norm_num

/-- C6 (counterexample): the digits `9007199254740993` are a numeric query, yet the `id`
sent is 9007199254740992, not the decimal value of the query. -/
theorem numeric_query_id_not_decimal_value :
    isNumeric (ascii "9007199254740993") = true ∧
      decimalValue (ascii "9007199254740993") = 9007199254740993 ∧
      (fetchAniListData.requestVariables asciiToUpperCase (ascii "9007199254740993")
          (ascii "anime")).id = some (.finite 9007199254740992) ∧
      (fetchAniListData.requestVariables asciiToUpperCase (ascii "9007199254740993")
          (ascii "anime")).id ≠ some (.finite (decimalValue (ascii "9007199254740993"))) := by
  have hnum : isNumeric (ascii "9007199254740993") = true := by decide
  have hval : decimalValue (ascii "9007199254740993") = 9007199254740993 := by decide
  have hid : (fetchAniListData.requestVariables asciiToUpperCase (ascii "9007199254740993")
      (ascii "anime")).id = some (.finite 9007199254740992) := by
    unfold fetchAniListData.requestVariables
    simp only [hnum, if_true, parseInt_of_isNumeric _ hnum, hval, roundBinary64_sample]
  refine ⟨hnum, hval, hid, ?_⟩
  rw [hid, hval]
  intro h
  injection h with h
  injection h with h
  norm_num at h

/-! ## The classifier of fetchSeriesData: URLs -/

theorem matchSeriesAt_eq_some_iff (s id : JSString) :
    matchSeriesAt s = some id ↔
      ∃ post, s = ascii "/series/" ++ id ++ post ∧ id.length = 9 ∧
        ∀ c ∈ id, isUpperAlnum c = true := by
  have hlen : (ascii "/series/").length = 8 := by decide
  constructor
  · intro h
    unfold matchSeriesAt at h
    by_cases hp : (ascii "/series/").isPrefixOf s = true
    · rw [if_pos hp] at h
      obtain ⟨rest, hrest⟩ := List.isPrefixOf_iff_prefix.mp hp
      subst hrest
      have hdrop : (ascii "/series/" ++ rest).drop 8 = rest := by
        rw [← hlen, List.drop_left]
      simp only [hdrop] at h
      by_cases hc : (rest.take 9).length = 9 ∧ (rest.take 9).all isUpperAlnum = true
      · rw [if_pos hc] at h
        injection h with h
        subst h
        refine ⟨rest.drop 9, ?_, hc.1, ?_⟩
        · rw [List.append_assoc, List.take_append_drop]
        · exact fun c hcm => List.all_eq_true.mp hc.2 c hcm
      · rw [if_neg hc] at h
        cases h
    · rw [if_neg hp] at h
      cases h
  · rintro ⟨post, hs, hl, hall⟩
    subst hs
    unfold matchSeriesAt
    have hp : (ascii "/series/").isPrefixOf (ascii "/series/" ++ id ++ post) = true := by
      rw [List.isPrefixOf_iff_prefix, List.append_assoc]
      exact List.prefix_append _ _
    have hdrop : (ascii "/series/" ++ id ++ post).drop 8 = id ++ post := by
      rw [List.append_assoc, ← hlen, List.drop_left]
    have htake : (id ++ post).take 9 = id := by
      rw [← hl, List.take_left]
    rw [if_pos hp]
    simp only [hdrop, htake]
    rw [if_pos ⟨hl, List.all_eq_true.mpr hall⟩]

theorem matchSeries_eq_none_iff (q : JSString) :
    matchSeries q = none ↔ ∀ pre suf, q = pre ++ suf → matchSeriesAt suf = none := by
  induction q with
  | nil =>
    constructor
    · intro _ pre suf h
      have hsuf : suf = [] := (List.append_eq_nil.mp h.symm).2
      subst hsuf
      rfl
    · intro _; rfl
  | cons c cs ih =>
    unfold matchSeries
    constructor
    · intro h pre suf hq
      cases hm : matchSeriesAt (c :: cs) with
      | some id => rw [hm] at h; cases h
      | none =>
        rw [hm] at h
        cases pre with
        | nil => rw [List.nil_append] at hq; rw [← hq]; exact hm
        | cons p pre =>
          rw [List.cons_append] at hq
          exact ih.mp h pre suf (List.cons.inj hq).2
    · intro h
      rw [h [] (c :: cs) rfl]
      exact ih.mpr (fun pre suf hq => h (c :: pre) suf (by rw [hq]; rfl))

theorem matchSeries_eq_some_iff (q id : JSString) :
    matchSeries q = some id ↔
      ∃ pre suf, q = pre ++ suf ∧ matchSeriesAt suf = some id ∧
        ∀ pre' suf', q = pre' ++ suf' → pre'.length < pre.length → matchSeriesAt suf' = none := by
  induction q with
  | nil =>
    constructor
    · intro h; cases h
    · rintro ⟨pre, suf, h, hm, -⟩
      have hsuf : suf = [] := (List.append_eq_nil.mp h.symm).2
      subst hsuf
      cases hm
  | cons c cs ih =>
    unfold matchSeries
    cases hm : matchSeriesAt (c :: cs) with
    | some id0 =>
      simp only
      constructor
      · intro h
        injection h with h
        subst h
        exact ⟨[], c :: cs, rfl, hm, fun pre' _ _ hlt => absurd hlt (Nat.not_lt_zero _)⟩
      · rintro ⟨pre, suf, hq, hsuf, hleft⟩
        cases pre with
        | nil =>
          rw [List.nil_append] at hq
          rw [← hq, hm] at hsuf
          exact hsuf
        | cons p pre =>
          have := hleft [] (c :: cs) rfl (by simp)
          rw [hm] at this
          cases this
    | none =>
      simp only
      rw [ih]
      constructor
      · rintro ⟨pre, suf, hq, hsuf, hleft⟩
        refine ⟨c :: pre, suf, by rw [hq]; rfl, hsuf, ?_⟩
        intro pre' suf' hq' hlt
        cases pre' with
        | nil => rw [List.nil_append] at hq'; rw [← hq']; exact hm
        | cons p pre' =>
          rw [List.cons_append] at hq'
          exact hleft pre' suf' (List.cons.inj hq').2 (by simpa using hlt)
      · rintro ⟨pre, suf, hq, hsuf, hleft⟩
        cases pre with
        | nil =>
          rw [List.nil_append] at hq
          rw [← hq, hm] at hsuf
          cases hsuf
        | cons p pre =>
          rw [List.cons_append] at hq
          refine ⟨pre, suf, (List.cons.inj hq).2, hsuf, ?_⟩
          intro pre' suf' hq' hlt
          exact hleft (c :: pre') suf' (by rw [hq']; rfl) (by simpa using hlt)

theorem seriesIdAt_iff (q pre id : JSString) :
    SeriesIdAt q pre id ↔ ∃ suf, q = pre ++ suf ∧ matchSeriesAt suf = some id := by
  constructor
  · rintro ⟨post, hq, hl, hall⟩
    refine ⟨ascii "/series/" ++ id ++ post, by rw [hq]; simp, ?_⟩
    exact (matchSeriesAt_eq_some_iff _ id).mpr ⟨post, rfl, hl, hall⟩
  · rintro ⟨suf, hq, hm⟩
    obtain ⟨post, hs, hl, hall⟩ := (matchSeriesAt_eq_some_iff suf id).mp hm
    exact ⟨post, by rw [hq, hs]; simp, hl, hall⟩

/-- The capture of `query.match(...)` is the identifier at the leftmost place where
`/series/` is followed by nine characters of the class. -/
theorem matchSeries_leftmost (q id : JSString) :
    matchSeries q = some id ↔
      ∃ pre, SeriesIdAt q pre id ∧
        ∀ pre' id', SeriesIdAt q pre' id' → pre.length ≤ pre'.length := by
  rw [matchSeries_eq_some_iff]
  constructor
  · rintro ⟨pre, suf, hq, hm, hleft⟩
    refine ⟨pre, (seriesIdAt_iff q pre id).mpr ⟨suf, hq, hm⟩, ?_⟩
    intro pre' id' h'
    obtain ⟨suf', hq', hm'⟩ := (seriesIdAt_iff q pre' id').mp h'
    by_contra hlt
    have := hleft pre' suf' hq' (not_le.mp hlt)
    rw [hm'] at this
    cases this
  · rintro ⟨pre, hat, hleft⟩
    obtain ⟨suf, hq, hm⟩ := (seriesIdAt_iff q pre id).mp hat
    refine ⟨pre, suf, hq, hm, ?_⟩
    intro pre' suf' hq' hlt
    cases hm' : matchSeriesAt suf' with
    | none => rfl
    | some id' =>
      have := hleft pre' id' ((seriesIdAt_iff q pre' id').mpr ⟨suf', hq', hm'⟩)
      omega

theorem mem_of_includes (q needle : JSString) (h : includes q needle = true) :
    ∀ c ∈ needle, c ∈ q := by
  induction q with
  | nil =>
    intro c hc
    simp only [includes, List.isEmpty_iff] at h
    rw [h] at hc
    cases hc
  | cons x xs ih =>
    intro c hc
    simp only [includes, Bool.or_eq_true] at h
    rcases h with h | h
    · exact (List.isPrefixOf_iff_prefix.mp h).subset hc
    · exact List.mem_cons_of_mem _ (ih h c hc)

theorem not_isDirectId_of_includes (q : JSString)
    (h : includes q (ascii "crunchyroll.com/") = true) : isDirectId q = false := by
  have hdot : 46 ∈ q := mem_of_includes q _ h 46 (by decide)
  cases hd : isDirectId q with
  | false => rfl
  | true =>
    simp only [isDirectId, Bool.and_eq_true, List.all_eq_true] at hd
    exact absurd (hd.2 46 hdot) (by decide)

theorem classify_of_includes (q : JSString) (h : includes q (ascii "crunchyroll.com/") = true) :
    fetchSeriesData.classify q = matchSeries q := by
  unfold fetchSeriesData.classify
  rw [not_isDirectId_of_includes q h, h]
  simp only [Bool.false_eq_true, if_false, if_true]
  cases matchSeries q <;> rfl

theorem routeQuery_of_includes (q : JSString) (h : includes q (ascii "crunchyroll.com/") = true) :
    fetchSeriesData.routeQuery q =
      match matchSeries q with
      | some id => .direct id
      | none => .search q := by
  unfold fetchSeriesData.routeQuery
  rw [classify_of_includes q h]
  cases hm : matchSeries q with
  | none => rfl
  | some id =>
    obtain ⟨pre, ⟨post, -, hl, -⟩, -⟩ := (matchSeries_leftmost q id).mp hm
    have hne : id ≠ [] := by
      intro h0
      rw [h0] at hl
      cases hl
    simp only [hne, if_false]

/-- C7 (amended): a query that contains `crunchyroll.com/` is a direct identifier exactly
when `/series/` is somewhere followed by nine characters of `[A-Z0-9]`, nothing being asked
of what comes after them; `seriesId` is then the nine characters at the leftmost such place,
and without such a place the full query goes to the free-text search. -/
theorem url_query_classification (query : JSString)
    (h : includes query (ascii "crunchyroll.com/") = true) :
    (∀ id, fetchSeriesData.routeQuery query = .direct id ↔
        ∃ pre, SeriesIdAt query pre id ∧
          ∀ pre' id', SeriesIdAt query pre' id' → pre.length ≤ pre'.length) ∧
      ((∃ id, fetchSeriesData.routeQuery query = .direct id) ↔ ∃ pre id, SeriesIdAt query pre id) ∧
      ((¬∃ pre id, SeriesIdAt query pre id) → fetchSeriesData.routeQuery query = .search query) := by
  have hroute := routeQuery_of_includes query h
  have hiff : ∀ id, fetchSeriesData.routeQuery query = .direct id ↔ matchSeries query = some id := by
    intro id
    rw [hroute]
    cases matchSeries query with
    | none => simp
    | some id0 => simp
  have hnone : (¬∃ pre id, SeriesIdAt query pre id) → matchSeries query = none := by
    intro hno
    rw [matchSeries_eq_none_iff]
    intro pre suf hq
    cases hm : matchSeriesAt suf with
    | none => rfl
    | some id => exact absurd ⟨pre, id, (seriesIdAt_iff query pre id).mpr ⟨suf, hq, hm⟩⟩ hno
  refine ⟨fun id => (hiff id).trans (matchSeries_leftmost query id), ?_, ?_⟩
  · constructor
    · rintro ⟨id, hid⟩
      obtain ⟨pre, hat, -⟩ := (matchSeries_leftmost query id).mp ((hiff id).mp hid)
      exact ⟨pre, id, hat⟩
    · intro hex
      cases hm : matchSeries query with
      | some id => exact ⟨id, (hiff id).mpr hm⟩
      | none =>
        obtain ⟨pre, id, hat⟩ := hex
        obtain ⟨suf, hq, hs⟩ := (seriesIdAt_iff query pre id).mp hat
        have := (matchSeries_eq_none_iff query).mp hm pre suf hq
        rw [hs] at this
        cases this
  · intro hno
    rw [hroute, hnone hno]

/-- C7 (witness): the identifier `GY9PJ5KWR` is taken from a series URL. -/
theorem url_query_classification_witness :
    includes (ascii "https://www.crunchyroll.com/series/GY9PJ5KWR/naruto")
        (ascii "crunchyroll.com/") = true ∧
      fetchSeriesData.routeQuery (ascii "https://www.crunchyroll.com/series/GY9PJ5KWR/naruto") =
        .direct (ascii "GY9PJ5KWR") ∧
      ∃ pre, SeriesIdAt (ascii "https://www.crunchyroll.com/series/GY9PJ5KWR/naruto") pre
        (ascii "GY9PJ5KWR") := by
  have hinc : includes (ascii "https://www.crunchyroll.com/series/GY9PJ5KWR/naruto")
      (ascii "crunchyroll.com/") = true := by decide
  have hroute : fetchSeriesData.routeQuery
      (ascii "https://www.crunchyroll.com/series/GY9PJ5KWR/naruto") =
        .direct (ascii "GY9PJ5KWR") := by decide
  obtain ⟨pre, hat, -⟩ := ((url_query_classification _ hinc).1 (ascii "GY9PJ5KWR")).mp hroute
  exact ⟨hinc, hroute, pre, hat⟩

theorem slashDelimitedIdAt_of (q id : JSString) (h : SlashDelimitedId q id) :
    q.tails.any slashDelimitedIdAt = true := by
  obtain ⟨pre, post, hq, hl, hall⟩ := h
  rw [List.any_eq_true]
  refine ⟨ascii "/series/" ++ id ++ 47 :: post, ?_, ?_⟩
  · rw [List.mem_tails, hq]
    exact ⟨pre, by simp⟩
  · have hlen : (ascii "/series/").length = 8 := by decide
    have hp : (ascii "/series/").isPrefixOf (ascii "/series/" ++ id ++ 47 :: post) = true := by
      rw [List.isPrefixOf_iff_prefix, List.append_assoc]
      exact List.prefix_append _ _
    have hdrop : (ascii "/series/" ++ id ++ 47 :: post).drop 8 = id ++ 47 :: post := by
      rw [List.append_assoc, ← hlen, List.drop_left]
    have htake : (id ++ 47 :: post).take 9 = id := by
      rw [← hl, List.take_left]
    have hdrop2 : (ascii "/series/" ++ id ++ 47 :: post).drop 17 = 47 :: post := by
      have h17 : (ascii "/series/" ++ id).length = 17 := by
        rw [List.length_append, hlen, hl]
      rw [← h17, List.drop_left]
    unfold slashDelimitedIdAt
    rw [hp, hdrop, htake, hdrop2]
    simp [hl, List.all_eq_true.mpr hall]

/-- C7 (counterexample): two URLs in which no nine-character segment after `/series` is
closed by a slash, one ending right after the identifier and one whose segment has ten
characters, are both treated as direct identifiers; for the second the `seriesId` is only
the first nine characters of its segment. -/
theorem url_without_closing_slash_is_direct :
    includes (ascii "https://www.crunchyroll.com/series/GY9PJ5KWR") (ascii "crunchyroll.com/") =
        true ∧
      fetchSeriesData.routeQuery (ascii "https://www.crunchyroll.com/series/GY9PJ5KWR") =
        .direct (ascii "GY9PJ5KWR") ∧
      fetchSeriesData.route (ascii "https://www.crunchyroll.com/series/GY9PJ5KWR") =
        .direct (ascii "GY9PJ5KWR") ∧
      (¬∃ id, SlashDelimitedId (ascii "https://www.crunchyroll.com/series/GY9PJ5KWR") id) ∧
      includes (ascii "https://www.crunchyroll.com/series/GY9PJ5KWRX/naruto")
        (ascii "crunchyroll.com/") = true ∧
      fetchSeriesData.routeQuery (ascii "https://www.crunchyroll.com/series/GY9PJ5KWRX/naruto") =
        .direct (ascii "GY9PJ5KWR") ∧
      ¬∃ id, SlashDelimitedId (ascii "https://www.crunchyroll.com/series/GY9PJ5KWRX/naruto") id := by
  refine ⟨by decide, by decide, by decide, ?_, by decide, by decide, ?_⟩
  · rintro ⟨id, hid⟩
    have := slashDelimitedIdAt_of _ id hid
    revert this
    decide
  · rintro ⟨id, hid⟩
    have := slashDelimitedIdAt_of _ id hid
    revert this
    decide

/-! ## The classifier of fetchSeriesData: numeric queries -/

theorem replaceEntities_of_no_amp (s : JSString) (h : 38 ∉ s) : replaceEntities 0 s = s := by
  induction s with
  | nil => rfl
  | cons c cs ih =>
    have hc : c ≠ 38 := fun hc => h (by rw [hc]; exact List.mem_cons_self _ _)
    have hcs : 38 ∉ cs := fun hm => h (List.mem_cons_of_mem _ hm)
    simp only [replaceEntities, hc, if_false, ih hcs]

theorem replaceSpaceRuns_of_no_space (r : Nat) (b : Bool) (s : JSString)
    (h : ∀ c ∈ s, isSpace c = false) : replaceSpaceRuns r b s = s := by
  induction s generalizing b with
  | nil => rfl
  | cons c cs ih =>
    have hc : isSpace c = false := h c (List.mem_cons_self _ _)
    simp only [replaceSpaceRuns, hc, Bool.false_eq_true, if_false,
      ih false (fun x hx => h x (List.mem_cons_of_mem _ hx))]

theorem trim_of_no_space (s : JSString) (h : ∀ c ∈ s, isSpace c = false) : trim s = s := by
  unfold trim
  have h1 : s.dropWhile isSpace = s := by
    cases s with
    | nil => rfl
    | cons c cs => simp [List.dropWhile, h c (List.mem_cons_self _ _)]
  rw [h1, List.rdropWhile_eq_self_iff]
  intro hne
  rw [h _ (List.getLast_mem hne)]
  simp

theorem sanitizeString_of_plain (s d : JSString) (hne : s ≠ []) (hamp : 38 ∉ s)
    (hsp : ∀ c ∈ s, isSpace c = false) : sanitizeString s d = s := by
  unfold sanitizeString
  simp only [hne, if_false, replaceEntities_of_no_amp s hamp,
    replaceSpaceRuns_of_no_space 32 false s hsp, trim_of_no_space s hsp]

theorem isDigit_facts (c : Nat) (h : isDigit c = true) :
    c ≠ 38 ∧ isSpace c = false ∧ isUpperAlnum c = true ∧ c ≠ 46 := by
  simp only [isDigit, Bool.and_eq_true, decide_eq_true_eq] at h
  refine ⟨by omega, ?_, ?_, by omega⟩
  · simp only [isSpace, Bool.or_eq_false_iff, decide_eq_false_iff_not, Bool.and_eq_false_imp,
      decide_eq_true_eq]
    omega
  · simp only [isUpperAlnum, Bool.or_eq_true, Bool.and_eq_true, decide_eq_true_eq]
    omega

theorem sanitizeString_of_isNumeric (q : JSString) (h : isNumeric q = true) :
    sanitizeString q [] = q := by
  simp only [isNumeric, Bool.and_eq_true, Bool.not_eq_true', List.isEmpty_eq_false,
    List.all_eq_true] at h
  apply sanitizeString_of_plain
  · intro hq; exact h.1 (by simp [hq])
  · intro hm; exact (isDigit_facts 38 (h.2 38 hm)).1 rfl
  · intro c hc; exact (isDigit_facts c (h.2 c hc)).2.1

/-- C8 (amended): a purely numeric query falls through to the free-text search, with
`seriesId` unset, unless it has exactly nine digits; a query of nine digits matches
`^[A-Z0-9]{9}$` and is taken as the identifier itself. -/
theorem numeric_query_route (query : JSString) (h : isNumeric query = true) :
    (query.length ≠ 9 →
        fetchSeriesData.classify (sanitizeString query []) = none ∧
          fetchSeriesData.route query = .search query) ∧
      (query.length = 9 → fetchSeriesData.route query = .direct query) := by
  have hsan := sanitizeString_of_isNumeric query h
  have hnum := h
  simp only [isNumeric, Bool.and_eq_true, Bool.not_eq_true', List.isEmpty_eq_false,
    List.all_eq_true] at h
  have hne : query ≠ [] := by intro hq; exact h.1 (by simp [hq])
  have hall : query.all isUpperAlnum = true :=
    List.all_eq_true.mpr (fun c hc => (isDigit_facts c (h.2 c hc)).2.2.1)
  have hinc : includes query (ascii "crunchyroll.com/") = false := by
    cases hi : includes query (ascii "crunchyroll.com/") with
    | false => rfl
    | true =>
      have hdot : 46 ∈ query := mem_of_includes query _ hi 46 (by decide)
      exact absurd rfl (isDigit_facts 46 (h.2 46 hdot)).2.2.2
  unfold fetchSeriesData.route
  simp only [hsan, hne, if_false]
  constructor
  · intro hlen
    have hcl : fetchSeriesData.classify query = none := by
      unfold fetchSeriesData.classify
      simp [isDirectId, hlen, hinc]
    refine ⟨hcl, ?_⟩
    unfold fetchSeriesData.routeQuery
    rw [hcl]
  · intro hlen
    have hcl : fetchSeriesData.classify query = some query := by
      unfold fetchSeriesData.classify
      simp [isDirectId, hlen, hall]
    unfold fetchSeriesData.routeQuery
    rw [hcl]
    simp only [hne, if_false]

/-- C8 (witness): the numeric query `21` leaves `seriesId` unset and goes to the search. -/
theorem numeric_query_route_witness :
    isNumeric (ascii "21") = true ∧ (ascii "21").length ≠ 9 ∧
      fetchSeriesData.classify (sanitizeString (ascii "21") []) = none ∧
      fetchSeriesData.route (ascii "21") = .search (ascii "21") :=
  ⟨by decide, by decide,
    (numeric_query_route (ascii "21") (by decide)).1 (by decide)⟩

/-- C8 (counterexample): the purely numeric query `123456789` is treated as a direct
identifier: the classifier sets `seriesId` to it and the search step is skipped. -/
theorem nine_digit_query_is_direct :
    isNumeric (ascii "123456789") = true ∧
      fetchSeriesData.classify (sanitizeString (ascii "123456789") []) =
        some (ascii "123456789") ∧
      fetchSeriesData.route (ascii "123456789") = .direct (ascii "123456789") := by
  decide

/-! ## sanitizeString -/

theorem spaceNormal_replaceSpaceRuns (b : Bool) (s : JSString) :
    spaceNormal b (replaceSpaceRuns 32 b s) := by
  induction s generalizing b with
  | nil => trivial
  | cons c cs ih =>
    by_cases hc : isSpace c = true
    · cases b with
      | true =>
        simp only [replaceSpaceRuns, hc, if_true]
        exact ih true
      | false =>
        simp only [replaceSpaceRuns, hc, if_true, Bool.false_eq_true, if_false]
        have h32 : isSpace 32 = true := by decide
        simp only [spaceNormal, h32, if_true]
        exact ⟨trivial, trivial, ih true⟩
    · simp only [replaceSpaceRuns, hc, if_false]
      simp only [spaceNormal, hc, if_false]
      exact ih false

theorem replaceSpaceRuns_of_spaceNormal (b : Bool) (s : JSString) (h : spaceNormal b s) :
    replaceSpaceRuns 32 b s = s := by
  induction s generalizing b with
  | nil => rfl
  | cons c cs ih =>
    by_cases hc : isSpace c = true
    · simp only [spaceNormal, hc, if_true] at h
      obtain ⟨h32, hb, hcs⟩ := h
      subst hb
      subst h32
      simp only [replaceSpaceRuns, hc, if_true, Bool.false_eq_true, if_false, ih true hcs]
    · have hc' : isSpace c = false := by simpa using hc
      simp only [spaceNormal, hc', Bool.false_eq_true, if_false] at h
      simp only [replaceSpaceRuns, hc', Bool.false_eq_true, if_false, ih false h]

theorem spaceNormal_prefix (b : Bool) (s r : JSString) (h : spaceNormal b (s ++ r)) :
    spaceNormal b s := by
  induction s generalizing b with
  | nil => trivial
  | cons c cs ih =>
    by_cases hc : isSpace c = true
    · simp only [List.cons_append, spaceNormal, hc, if_true] at h ⊢
      exact ⟨h.1, h.2.1, ih true h.2.2⟩
    · simp only [List.cons_append, spaceNormal, hc, if_false] at h ⊢
      exact ih false h

theorem spaceNormal_dropWhile (b : Bool) (s : JSString) (h : spaceNormal b s) :
    spaceNormal false (s.dropWhile isSpace) := by
  induction s generalizing b with
  | nil => trivial
  | cons c cs ih =>
    by_cases hc : isSpace c = true
    · simp only [spaceNormal, hc, if_true] at h
      simp only [List.dropWhile, hc]
      exact ih true h.2.2
    · simp only [spaceNormal, hc, if_false] at h
      simp only [List.dropWhile, hc]
      simp only [spaceNormal, hc, if_false]
      exact h

theorem spaceNormal_trim (b : Bool) (s : JSString) (h : spaceNormal b s) :
    spaceNormal false (trim s) := by
  unfold trim
  obtain ⟨r, hr⟩ := List.rdropWhile_prefix isSpace (l := s.dropWhile isSpace)
  apply spaceNormal_prefix false _ r
  rw [hr]
  exact spaceNormal_dropWhile b s h

theorem dropWhile_head_not (p : Nat → Bool) (s : JSString) (c : Nat) (cs : JSString)
    (h : s.dropWhile p = c :: cs) : p c = false := by
  induction s with
  | nil => cases h
  | cons x xs ih =>
    by_cases hx : p x = true
    · simp only [List.dropWhile, hx] at h
      exact ih h
    · simp only [List.dropWhile, hx] at h
      obtain ⟨h1, -⟩ := List.cons.inj h
      rw [← h1]
      simpa using hx

theorem trim_trim (s : JSString) : trim (trim s) = trim s := by
  have hd : (trim s).dropWhile isSpace = trim s := by
    unfold trim
    obtain ⟨r, hr⟩ := List.rdropWhile_prefix isSpace (l := s.dropWhile isSpace)
    cases hz : List.rdropWhile isSpace (s.dropWhile isSpace) with
    | nil => rfl
    | cons c cs =>
      rw [hz] at hr
      have hc : isSpace c = false := dropWhile_head_not isSpace s c (cs ++ r) hr.symm
      simp [List.dropWhile, hc]
  have hr : (trim s).rdropWhile isSpace = trim s := by
    unfold trim
    exact List.rdropWhile_idempotent isSpace _
  show ((trim s).dropWhile isSpace).rdropWhile isSpace = trim s
  rw [hd, hr]

theorem replaceEntities_skip (k : Nat) (s : JSString) :
    replaceEntities k s = replaceEntities 0 (s.drop k) := by
  induction s generalizing k with
  | nil => cases k <;> rfl
  | cons c cs ih =>
    cases k with
    | zero => rfl
    | succ k =>
      rw [replaceEntities, ih k]
      rfl

theorem includes_cons (c : Nat) (cs needle : JSString) (h : includes cs needle = true) :
    includes (c :: cs) needle = true := by
  simp only [includes, Bool.or_eq_true]
  exact Or.inr h

theorem includes_drop (n : Nat) (s needle : JSString) (h : includes (s.drop n) needle = true) :
    includes s needle = true := by
  induction n generalizing s with
  | zero => simpa using h
  | succ n ih =>
    cases s with
    | nil => simpa using h
    | cons c cs =>
      rw [List.drop_succ_cons] at h
      exact includes_cons c cs needle (ih cs h)

theorem noTableEntity_cons (c : Nat) (cs : JSString) (h : NoTableEntity (c :: cs)) :
    NoTableEntity cs := by
  intro e he
  cases hi : includes cs e.1 with
  | false => rfl
  | true =>
    have := includes_cons c cs e.1 hi
    rw [h e he] at this
    cases this

theorem decodeEntity_of_not_key (m : JSString) (h : ∀ e ∈ htmlEntities, e.1 ≠ m) :
    decodeEntity m = m := by
  unfold decodeEntity
  have hl : htmlEntities.lookup m = none := by
    rw [List.lookup_eq_none_iff]
    intro e he
    simpa using fun heq => h e he heq.symm
  rw [hl]

theorem replaceEntities_of_noTableEntity : ∀ (n : Nat) (s : JSString), s.length ≤ n →
    NoTableEntity s → replaceEntities 0 s = s := by
  intro n
  induction n with
  | zero =>
    intro s hlen _
    have : s = [] := List.length_eq_zero.mp (Nat.le_zero.mp hlen)
    subst this
    rfl
  | succ n ih =>
    intro s hlen hno
    cases s with
    | nil => rfl
    | cons c cs =>
      have hcs : cs.length ≤ n := by simpa using hlen
      have hrest := ih cs hcs (noTableEntity_cons c cs hno)
      by_cases hc : c = 38
      · cases ht : entityTail cs with
        | none => simp only [replaceEntities, hc, if_true, ht, hrest]
        | some k =>
          simp only [replaceEntities, hc, if_true, ht]
          have hkey : decodeEntity (38 :: cs.take k) = 38 :: cs.take k := by
            apply decodeEntity_of_not_key
            intro e he heq
            have hinc : includes (c :: cs) e.1 = true := by
              simp only [includes, Bool.or_eq_true]
              left
              rw [heq, hc, List.isPrefixOf_iff_prefix]
              exact ⟨cs.drop k, by simp⟩
            rw [hno e he] at hinc
            cases hinc
          have hdrop : NoTableEntity (cs.drop k) := by
            intro e he
            cases hi : includes (cs.drop k) e.1 with
            | false => rfl
            | true =>
              have := includes_cons c cs e.1 (includes_drop k cs e.1 hi)
              rw [hno e he] at this
              cases this
          rw [hkey, replaceEntities_skip k cs,
            ih (cs.drop k) (by rw [List.length_drop]; omega) hdrop]
          simp
      · simp only [replaceEntities, hc, if_false, hrest]

/-- A second pass leaves the first result alone when no entity of the table is left in
it. -/
theorem sanitizeString_fixed (x z d : JSString)
    (hz : z = trim (replaceSpaceRuns 32 false (replaceEntities 0 x))) (hne : z ≠ [])
    (hno : NoTableEntity z) : sanitizeString z d = z := by
  have hnorm : spaceNormal false z := by
    rw [hz]
    exact spaceNormal_trim false _ (spaceNormal_replaceSpaceRuns false _)
  have htrim : trim z = z := by rw [hz, trim_trim]
  unfold sanitizeString
  simp only [hne, if_false, replaceEntities_of_noTableEntity z.length z (le_refl _) hno,
    replaceSpaceRuns_of_spaceNormal false z hnorm, htrim]

/-- C9 (amended): `sanitizeString` is idempotent on every input whose first result includes
none of the six entities of the table, so that nothing is left to decode, when the default
value is itself unchanged by `sanitizeString` (as are `""` and `"N/A"`, the defaults of the
source). -/
theorem sanitizeString_idempotent (x d : JSString) (hd : sanitizeString d d = d)
    (hno : NoTableEntity (sanitizeString x d)) :
    sanitizeString (sanitizeString x d) d = sanitizeString x d := by
  by_cases hx : x = []
  · have h1 : sanitizeString x d = d := by simp [sanitizeString, hx]
    rw [h1, hd]
  · by_cases hz : trim (replaceSpaceRuns 32 false (replaceEntities 0 x)) = []
    · have h1 : sanitizeString x d = d := by simp [sanitizeString, hx, hz]
      rw [h1, hd]
    · have h1 : sanitizeString x d = trim (replaceSpaceRuns 32 false (replaceEntities 0 x)) := by
        simp [sanitizeString, hx, hz]
      rw [h1] at hno ⊢
      exact sanitizeString_fixed x _ d rfl hz hno

/-- C9 (witness): the first result `Tom & Jerry` includes no entity of the table, and a
second pass returns it unchanged. -/
theorem sanitizeString_idempotent_witness :
    sanitizeString (ascii "N/A") (ascii "N/A") = ascii "N/A" ∧
      NoTableEntity (sanitizeString (ascii "  Tom &amp;  Jerry&nbsp; ") (ascii "N/A")) ∧
      sanitizeString (ascii "  Tom &amp;  Jerry&nbsp; ") (ascii "N/A") = ascii "Tom & Jerry" ∧
      sanitizeString (sanitizeString (ascii "  Tom &amp;  Jerry&nbsp; ") (ascii "N/A")) (ascii "N/A") =
        sanitizeString (ascii "  Tom &amp;  Jerry&nbsp; ") (ascii "N/A") :=
  ⟨by decide, by decide, by decide,
    sanitizeString_idempotent (ascii "  Tom &amp;  Jerry&nbsp; ") (ascii "N/A") (by decide)
      (by decide)⟩

/-- C9 (counterexample): a doubly escaped entity is decoded once per pass, so the second
pass changes the result of the first; and a default value with a run of spaces is returned
as it is by the first pass and collapsed by the second. -/
theorem sanitizeString_not_idempotent :
    sanitizeString (ascii "&amp;lt;") [] = ascii "&lt;" ∧
      sanitizeString (sanitizeString (ascii "&amp;lt;") []) [] = ascii "<" ∧
      sanitizeString (sanitizeString (ascii "&amp;lt;") []) [] ≠
        sanitizeString (ascii "&amp;lt;") [] ∧
      sanitizeString (sanitizeString [] (ascii "a  b")) (ascii "a  b") ≠
        sanitizeString [] (ascii "a  b") := by
  decide

/-! ## sanitizeUrl -/

theorem beginsHttp_nil : beginsHttp [] = false := by decide

theorem sanitizeUrl_of_http (s : JSString) (hs : beginsHttp (trim s) = true) :
    sanitizeUrl (.string s) = .string (trim s) := by
  have hne : s ≠ [] := by
    intro h0
    rw [h0] at hs
    exact absurd hs (by decide)
  simp only [sanitizeUrl, hne, if_false, hs, if_true]

theorem sanitizeUrl_of_not_http (s : JSString) (hs : beginsHttp (trim s) = false) :
    sanitizeUrl (.string s) = .null := by
  by_cases hne : s = []
  · simp only [sanitizeUrl, hne, if_true]
  · simp only [sanitizeUrl, hne, if_false, hs, Bool.false_eq_true]

/-- C10 (amended): `sanitizeUrl(v)` is the trimmed string when `v` is a string whose trimmed
form begins with `http://` or `https://` (so `v` itself when `v` has no white space at its
ends), and `null` for every other input, non-strings included; a result that is not `null`
is a string that begins with `http://` or `https://`. -/
theorem sanitizeUrl_spec (v : JSValue) :
    (∀ s, v = .string s → beginsHttp (trim s) = true → sanitizeUrl v = .string (trim s)) ∧
      (∀ s, v = .string s → beginsHttp s = true → trim s = s → sanitizeUrl v = v) ∧
      ((∀ s, v = .string s → beginsHttp (trim s) = false) → sanitizeUrl v = .null) ∧
      (sanitizeUrl v = .null ∨ ∃ u, sanitizeUrl v = .string u ∧ beginsHttp u = true) := by
  refine ⟨?_, ?_, ?_, ?_⟩
  · rintro s rfl hs
    exact sanitizeUrl_of_http s hs
  · rintro s rfl hs ht
    have := sanitizeUrl_of_http s (by rw [ht]; exact hs)
    rw [ht] at this
    exact this
  · intro hall
    cases v with
    | string s => exact sanitizeUrl_of_not_http s (hall s rfl)
    | undefined => rfl
    | null => rfl
    | bool b => rfl
    | number x => rfl
    | bigint n => rfl
    | array items => rfl
    | object fields => rfl
  · cases v with
    | string s =>
      cases hb : beginsHttp (trim s) with
      | true => exact Or.inr ⟨trim s, sanitizeUrl_of_http s hb, hb⟩
      | false => exact Or.inl (sanitizeUrl_of_not_http s hb)
    | undefined => exact Or.inl rfl
    | null => exact Or.inl rfl
    | bool b => exact Or.inl rfl
    | number x => exact Or.inl rfl
    | bigint n => exact Or.inl rfl
    | array items => exact Or.inl rfl
    | object fields => exact Or.inl rfl

/-- C10 (witness): an absolute URL between spaces comes back trimmed; a relative path gives
`null`. -/
theorem sanitizeUrl_spec_witness :
    beginsHttp (trim (ascii "  https://www.crunchyroll.com/a.png ")) = true ∧
      sanitizeUrl (.string (ascii "  https://www.crunchyroll.com/a.png ")) =
        .string (ascii "https://www.crunchyroll.com/a.png") ∧
      sanitizeUrl (.string (ascii "/relative/a.png")) = .null := by
  have hb : beginsHttp (trim (ascii "  https://www.crunchyroll.com/a.png ")) = true := by decide
  have ht : trim (ascii "  https://www.crunchyroll.com/a.png ") =
      ascii "https://www.crunchyroll.com/a.png" := by decide
  have h := (sanitizeUrl_spec (.string (ascii "  https://www.crunchyroll.com/a.png "))).1 _ rfl hb
  rw [ht] at h
  refine ⟨hb, h, ?_⟩
  apply (sanitizeUrl_spec (.string (ascii "/relative/a.png"))).2.2.1
  intro s hs
  injection hs with hs
  subst hs
  decide

/-- C10 (counterexample): a string that begins with a space, not with `http://`, comes
back as its trimmed form instead of `null`; and a string that begins with `http://` and ends
with a space does not come back as itself. -/
theorem sanitizeUrl_trims :
    beginsHttp (ascii " http://a") = false ∧
      sanitizeUrl (.string (ascii " http://a")) = .string (ascii "http://a") ∧
      sanitizeUrl (.string (ascii " http://a")) ≠ .null ∧
      beginsHttp (ascii "http://a ") = true ∧
      sanitizeUrl (.string (ascii "http://a ")) = .string (ascii "http://a") ∧
      sanitizeUrl (.string (ascii "http://a ")) ≠ .string (ascii "http://a ") := by
  have h1 : sanitizeUrl (.string (ascii " http://a")) = .string (ascii "http://a") := by
    have hb : beginsHttp (trim (ascii " http://a")) = true := by decide
    have ht : trim (ascii " http://a") = ascii "http://a" := by decide
    have := sanitizeUrl_of_http (ascii " http://a") hb
    rw [ht] at this
    exact this
  have h2 : sanitizeUrl (.string (ascii "http://a ")) = .string (ascii "http://a") := by
    have hb : beginsHttp (trim (ascii "http://a ")) = true := by decide
    have ht : trim (ascii "http://a ") = ascii "http://a" := by decide
    have := sanitizeUrl_of_http (ascii "http://a ") hb
    rw [ht] at this
    exact this
  refine ⟨by decide, h1, ?_, by decide, h2, ?_⟩
  · rw [h1]
    intro h
    cases h
  · rw [h2]
    intro h
    injection h with h
    revert h
    decide

/-! ## sanitizeList, the genres and the response of handleCrunchyroll -/

theorem getProp_of_not_nullish (v : JSValue) (key : JSString) (h : isNullish v = false) :
    getProp v key = .ok (fieldOf v key) := by
  cases v <;> first | rfl | cases h

theorem genreName_of_not_nullish (cat : JSValue) (h : isNullish cat = false) :
    genreName cat = .ok (categoryName cat) := by
  cases cat with
  | string s => rfl
  | undefined => cases h
  | null => cases h
  | bool b => rfl
  | number x => rfl
  | bigint n => rfl
  | array items => rfl
  | object fields =>
    simp only [genreName, categoryName, getProp, fieldOf, bind, Except.bind, pure, Except.pure]
    split_ifs <;> rfl

theorem genreStep_of_not_nullish (stringOf : JSValue → JSString) (genres : List JSString)
    (cat : JSValue) (h : isNullish cat = false) :
    genreStep stringOf genres cat = .ok (genres ++ derivedGenres stringOf [cat]) := by
  unfold genreStep
  rw [genreName_of_not_nullish cat h]
  simp only [bind, Except.bind, pure, Except.pure, derivedGenres, List.filterMap_cons,
    List.filterMap_nil]
  by_cases ht : truthy (categoryName cat) = true
  · simp [ht]
  · simp [ht]

theorem foldlM_genreStep (stringOf : JSValue → JSString) (cats : List JSValue)
    (genres : List JSString) (h : ∀ cat ∈ cats, isNullish cat = false) :
    cats.foldlM (genreStep stringOf) genres = .ok (genres ++ derivedGenres stringOf cats) := by
  induction cats generalizing genres with
  | nil => simp [derivedGenres, pure, Except.pure]
  | cons cat cats ih =>
    rw [List.foldlM_cons, genreStep_of_not_nullish stringOf genres cat
      (h cat (List.mem_cons_self _ _))]
    simp only [bind, Except.bind]
    rw [ih _ (fun c hc => h c (List.mem_cons_of_mem _ hc))]
    simp [derivedGenres, List.filterMap_cons]
    split <;> simp

theorem genres_of_nonempty (stringOf : JSValue → JSString) (genresRaw : List JSString)
    (fullData : JSValue) (h : genresRaw ≠ []) :
    fetchSeriesData.genres stringOf genresRaw fullData = .ok genresRaw := by
  unfold fetchSeriesData.genres
  rw [if_pos h]

theorem genres_of_no_categories (stringOf : JSValue → JSString)
    (fields : List (JSString × JSValue))
    (h : truthy (fieldOf (.object fields) (ascii "tenant_categories")) = false) :
    fetchSeriesData.genres stringOf [] (.object fields) = .ok [] := by
  unfold fetchSeriesData.genres
  simp only [ne_eq, not_true_eq_false, if_false, getProp, bind, Except.bind]
  simp only [fieldOf] at h
  simp [h, iterate, pure, Except.pure]

theorem genres_of_categories (stringOf : JSValue → JSString)
    (fields : List (JSString × JSValue)) (cats : List JSValue)
    (htc : fieldOf (.object fields) (ascii "tenant_categories") = .array cats)
    (h : ∀ cat ∈ cats, isNullish cat = false) :
    fetchSeriesData.genres stringOf [] (.object fields) = .ok (derivedGenres stringOf cats) := by
  unfold fetchSeriesData.genres
  simp only [ne_eq, not_true_eq_false, if_false, getProp, bind, Except.bind]
  simp only [fieldOf] at htc
  rw [htc]
  simp only [truthy, if_true, iterate]
  rw [foldlM_genreStep stringOf cats [] h]
  simp

theorem fetchCategories_failed (stringOf : JSValue → JSString) :
    fetchCategories stringOf .failed = [] := rfl

theorem fetchCategories_not_ok (stringOf : JSValue → JSString) (body : JSValue) :
    fetchCategories stringOf (.response false body) = [] := rfl

theorem isUpperAlnum_facts (c : Nat) (h : isUpperAlnum c = true) :
    c ≠ 38 ∧ isSpace c = false := by
  simp only [isUpperAlnum, Bool.or_eq_true, Bool.and_eq_true, decide_eq_true_eq] at h
  refine ⟨by omega, ?_⟩
  simp only [isSpace, Bool.or_eq_false_iff, decide_eq_false_iff_not, Bool.and_eq_false_imp,
    decide_eq_true_eq]
  omega

theorem route_of_isDirectId (seriesId : JSString) (h : isDirectId seriesId = true) :
    seriesId ≠ [] ∧ fetchSeriesData.route seriesId = .direct seriesId := by
  have hd := h
  simp only [isDirectId, Bool.and_eq_true, decide_eq_true_eq, List.all_eq_true] at hd
  have hne : seriesId ≠ [] := by
    intro h0
    rw [h0] at hd
    exact absurd hd.1 (by decide)
  have hsan : sanitizeString seriesId [] = seriesId := by
    apply sanitizeString_of_plain seriesId [] hne
    · intro hm; exact (isUpperAlnum_facts 38 (hd.2 38 hm)).1 rfl
    · intro c hc; exact (isUpperAlnum_facts c (hd.2 c hc)).2
  refine ⟨hne, ?_⟩
  unfold fetchSeriesData.route
  simp only [hsan, hne, if_false]
  unfold fetchSeriesData.routeQuery fetchSeriesData.classify
  simp only [h, if_true, hne, if_false]

theorem assemble_with_genres (stringOf : JSValue → JSString) (seriesId : JSString)
    (fullData searchItem : JSValue) (genres genres' : List JSString) (copyrightText : JSString)
    (r : SeriesRecord)
    (h : fetchSeriesData.assemble stringOf seriesId fullData searchItem genres copyrightText =
      .ok r) :
    fetchSeriesData.assemble stringOf seriesId fullData searchItem genres' copyrightText =
      .ok { r with genres := genres' } := by
  unfold fetchSeriesData.assemble at h ⊢
  simp only [bind, Except.bind, pure, Except.pure] at h ⊢
  split at h
  · cases h
  · split at h
    · cases h
    · split at h
      · cases h
      · split at h
        · cases h
        · injection h with h
          rw [← h]
          rfl

theorem finish_of_genres (stringOf : JSValue → JSString) (seriesId : JSString)
    (fullData : JSValue) (rest : List JSValue) (searchResult item : JSValue)
    (genresRaw genres : List JSString) (copyrightText : JSString) (base : SeriesRecord)
    (hsearch : searchItemOf searchResult seriesId = .ok item)
    (hbase : fetchSeriesData.assemble stringOf seriesId fullData item [] copyrightText =
      .ok base)
    (h : fetchSeriesData.genres stringOf genresRaw fullData = .ok genres) :
    fetchSeriesData.finish stringOf seriesId searchResult (some (fullData :: rest)) genresRaw
        copyrightText = .ok (.record { base with genres := genres }) := by
  unfold fetchSeriesData.finish
  simp only [hsearch, h, bind, Except.bind,
    assemble_with_genres stringOf seriesId fullData item [] genres copyrightText base hbase,
    pure, Except.pure]

theorem handleCrunchyroll_direct (toLowerCase : JSString → JSString)
    (stringOf : JSValue → JSString) (world : Upstream) (seriesId token : JSString)
    (cmsData : Option (List JSValue)) (searchResult : JSValue) (result : SeriesResult)
    (hlogin : world.login = .ok token) (hid : isDirectId seriesId = true)
    (hcms : world.cms seriesId = .ok cmsData) (hsnap : world.snapshot seriesId = .ok searchResult)
    (hres : fetchSeriesData.finish stringOf seriesId searchResult cmsData
      (fetchCategories stringOf (world.categories seriesId))
      (fetchCopyright stringOf (world.copyright seriesId)) = .ok result) :
    handleCrunchyroll toLowerCase stringOf world (ascii "/") (some seriesId) =
      { status := 200, body := .result result } := by
  obtain ⟨hne, hroute⟩ := route_of_isDirectId seriesId hid
  have hfetch : fetchSeriesData toLowerCase stringOf world seriesId = .ok result := by
    unfold fetchSeriesData
    rw [hroute]
    simp only [fetchSeriesData.details, hne, if_false, hcms, hsnap, bind, Except.bind, hres]
  unfold handleCrunchyroll
  simp only [if_true, hne, if_false, hlogin, hfetch]

theorem categoryTitle_of_not_nullish (item : JSValue) (h : isNullish item = false) :
    categoryTitle item = .ok (localizedTitle item) := by
  unfold categoryTitle localizedTitle
  rw [getProp_of_not_nullish item _ h]
  simp only [bind, Except.bind]
  cases hl : fieldOf item (ascii "localization") <;>
    simp [getPropOpt, getProp, isNullish, fieldOf]

theorem categoryStep_of_not_nullish (stringOf : JSValue → JSString) (acc : List JSString)
    (item : JSValue) (h : isNullish item = false) :
    categoryStep stringOf acc item = .ok (acc ++ titledCategories stringOf [item]) := by
  unfold categoryStep
  rw [categoryTitle_of_not_nullish item h]
  simp only [bind, Except.bind, pure, Except.pure, titledCategories, List.filterMap_cons,
    List.filterMap_nil]
  by_cases ht : truthy (localizedTitle item) = true
  · simp [ht]
  · simp [ht]

theorem foldlM_categoryStep (stringOf : JSValue → JSString) (items : List JSValue)
    (acc : List JSString) (h : ∀ item ∈ items, isNullish item = false) :
    items.foldlM (categoryStep stringOf) acc = .ok (acc ++ titledCategories stringOf items) := by
  induction items generalizing acc with
  | nil => simp [titledCategories, pure, Except.pure]
  | cons item items ih =>
    rw [List.foldlM_cons, categoryStep_of_not_nullish stringOf acc item
      (h item (List.mem_cons_self _ _))]
    simp only [bind, Except.bind]
    rw [ih _ (fun c hc => h c (List.mem_cons_of_mem _ hc))]
    simp [titledCategories, List.filterMap_cons]
    split <;> simp

theorem fetchCategories_of_items (stringOf : JSValue → JSString)
    (bodyFields : List (JSString × JSValue)) (items : List JSValue)
    (hdata : fieldOf (.object bodyFields) (ascii "data") = .array items)
    (h : ∀ item ∈ items, isNullish item = false) :
    fetchCategories stringOf (.response true (.object bodyFields)) =
      titledCategories stringOf items := by
  simp only [fieldOf] at hdata
  simp only [fetchCategories, categoryTitles, getProp, bind, Except.bind, hdata, truthy, if_true,
    foldlM_categoryStep stringOf items [] h, List.nil_append]

theorem foldlM_error_of_nullish (f : List JSString → JSValue → Except Thrown (List JSString))
    (hok : ∀ acc x, isNullish x = false → ∃ acc', f acc x = .ok acc')
    (herr : ∀ acc x, isNullish x = true → f acc x = .error .typeError)
    (xs : List JSValue) (acc : List JSString) (h : ∃ x ∈ xs, isNullish x = true) :
    xs.foldlM f acc = .error .typeError := by
  induction xs generalizing acc with
  | nil =>
    obtain ⟨x, hx, -⟩ := h
    cases hx
  | cons y ys ih =>
    rw [List.foldlM_cons]
    cases hy : isNullish y with
    | true =>
      rw [herr acc y hy]
      rfl
    | false =>
      obtain ⟨acc', hacc⟩ := hok acc y hy
      rw [hacc]
      simp only [bind, Except.bind]
      apply ih
      obtain ⟨x, hx, hxn⟩ := h
      rcases List.mem_cons.mp hx with rfl | hx'
      · rw [hy] at hxn; cases hxn
      · exact ⟨x, hx', hxn⟩

theorem genreStep_of_nullish (stringOf : JSValue → JSString) (genres : List JSString)
    (cat : JSValue) (h : isNullish cat = true) :
    genreStep stringOf genres cat = .error .typeError := by
  cases cat <;> first | rfl | cases h

theorem categoryStep_of_nullish (stringOf : JSValue → JSString) (acc : List JSString)
    (item : JSValue) (h : isNullish item = true) :
    categoryStep stringOf acc item = .error .typeError := by
  cases item <;> first | rfl | cases h

theorem genres_of_nullish_category (stringOf : JSValue → JSString)
    (fields : List (JSString × JSValue)) (cats : List JSValue)
    (htc : fieldOf (.object fields) (ascii "tenant_categories") = .array cats)
    (h : ∃ cat ∈ cats, isNullish cat = true) :
    fetchSeriesData.genres stringOf [] (.object fields) = .error .typeError := by
  unfold fetchSeriesData.genres
  simp only [ne_eq, not_true_eq_false, if_false, getProp, bind, Except.bind]
  simp only [fieldOf] at htc
  rw [htc]
  simp only [truthy, if_true, iterate]
  exact foldlM_error_of_nullish (genreStep stringOf)
    (fun acc x hx => ⟨_, genreStep_of_not_nullish stringOf acc x hx⟩)
    (genreStep_of_nullish stringOf) cats [] h

theorem finish_of_genres_error (stringOf : JSValue → JSString) (seriesId : JSString)
    (fullData : JSValue) (rest : List JSValue) (searchResult item : JSValue)
    (genresRaw : List JSString) (copyrightText : JSString) (e : Thrown)
    (hsearch : searchItemOf searchResult seriesId = .ok item)
    (h : fetchSeriesData.genres stringOf genresRaw fullData = .error e) :
    fetchSeriesData.finish stringOf seriesId searchResult (some (fullData :: rest)) genresRaw
        copyrightText = .error e := by
  unfold fetchSeriesData.finish
  simp only [hsearch, h, bind, Except.bind]

theorem fetchCategories_of_nullish_item (stringOf : JSValue → JSString)
    (bodyFields : List (JSString × JSValue)) (items : List JSValue)
    (hdata : fieldOf (.object bodyFields) (ascii "data") = .array items)
    (h : ∃ entry ∈ items, isNullish entry = true) :
    fetchCategories stringOf (.response true (.object bodyFields)) = [] := by
  simp only [fieldOf] at hdata
  simp only [fetchCategories, categoryTitles, getProp, bind, Except.bind, hdata, truthy, if_true,
    foldlM_error_of_nullish (categoryStep stringOf)
      (fun acc x hx => ⟨_, categoryStep_of_not_nullish stringOf acc x hx⟩)
      (categoryStep_of_nullish stringOf) items [] h]

theorem fetchCategories_of_no_array (stringOf : JSValue → JSString) (body : JSValue)
    (h : ∀ items, fieldOf body (ascii "data") ≠ .array items) :
    fetchCategories stringOf (.response true body) = [] := by
  cases hb : isNullish body with
  | true => cases body <;> first | rfl | cases hb
  | false =>
    simp only [fetchCategories, categoryTitles, getProp_of_not_nullish body _ hb, bind,
      Except.bind]
    cases hd : fieldOf body (ascii "data") with
    | array items => exact absurd hd (h items)
    | undefined => rfl
    | null => rfl
    | bool b => cases b <;> rfl
    | number x =>
      by_cases ht : truthy (.number x) = true
      · simp [ht]
      · simp [ht, List.foldlM, pure, Except.pure]
    | bigint n =>
      by_cases ht : truthy (.bigint n) = true
      · simp [ht]
      · simp [ht, List.foldlM, pure, Except.pure]
    | string t =>
      by_cases ht : truthy (.string t) = true
      · simp [ht]
      · simp [ht, List.foldlM, pure, Except.pure]
    | object fs => rfl

/-- C13: with the primary record present and the other reads of the record succeeding (the
search item of lines 269-273, the images and the awards of lines 286-307, none of which
depends on the categories), `genres` is the result of the category fetch when that result is
not empty; when the fetch failed or gave nothing, `genres` is derived in order from
`tenant_categories` of the primary record (a string entry itself, otherwise the first truthy
of `display_value`, `label`, `id`, each through `sanitizeString`, entries without a name left
out); the value returned is a record, which `handleCrunchyroll` sends with status 200.  An
entry that is `null` or `undefined` makes the derivation throw.  The category fetch gives the
sanitised titles of the items that have one, and the empty list when the request fails, is
not `ok`, has no array `data`, or has an item that is `null` or `undefined`. -/
theorem genres_reconciliation (toLowerCase : JSString → JSString)
    (stringOf : JSValue → JSString) (seriesId : JSString) (fields : List (JSString × JSValue))
    (rest : List JSValue) (searchResult item : JSValue) (resp : CategoryResponse)
    (copyrightText : JSString) (base : SeriesRecord)
    (hsearch : searchItemOf searchResult seriesId = .ok item)
    (hbase : fetchSeriesData.assemble stringOf seriesId (.object fields) item []
      copyrightText = .ok base) :
    (fetchCategories stringOf resp ≠ [] →
        fetchSeriesData.finish stringOf seriesId searchResult (some (.object fields :: rest))
            (fetchCategories stringOf resp) copyrightText =
          .ok (.record { base with genres := fetchCategories stringOf resp })) ∧
      (fetchCategories stringOf resp = [] →
        truthy (fieldOf (.object fields) (ascii "tenant_categories")) = false →
        fetchSeriesData.finish stringOf seriesId searchResult (some (.object fields :: rest))
            (fetchCategories stringOf resp) copyrightText =
          .ok (.record { base with genres := [] })) ∧
      (fetchCategories stringOf resp = [] →
        ∀ cats, fieldOf (.object fields) (ascii "tenant_categories") = .array cats →
          (∀ cat ∈ cats, isNullish cat = false) →
          fetchSeriesData.finish stringOf seriesId searchResult (some (.object fields :: rest))
              (fetchCategories stringOf resp) copyrightText =
            .ok (.record { base with genres := derivedGenres stringOf cats })) ∧
      (fetchCategories stringOf resp = [] →
        ∀ cats, fieldOf (.object fields) (ascii "tenant_categories") = .array cats →
          (∃ cat ∈ cats, isNullish cat = true) →
          fetchSeriesData.finish stringOf seriesId searchResult (some (.object fields :: rest))
              (fetchCategories stringOf resp) copyrightText = .error .typeError) ∧
      (∀ (result : SeriesResult) (world : Upstream) (token : JSString),
        fetchSeriesData.finish stringOf seriesId searchResult (some (.object fields :: rest))
            (fetchCategories stringOf resp) copyrightText = .ok result →
          world.login = .ok token → isDirectId seriesId = true →
          world.cms seriesId = .ok (some (.object fields :: rest)) →
          world.snapshot seriesId = .ok searchResult →
          world.categories seriesId = resp →
          fetchCopyright stringOf (world.copyright seriesId) = copyrightText →
          handleCrunchyroll toLowerCase stringOf world (ascii "/") (some seriesId) =
            { status := 200, body := .result result }) ∧
      fetchCategories stringOf .failed = [] ∧
      (∀ body, fetchCategories stringOf (.response false body) = []) ∧
      (∀ body, (∀ items, fieldOf body (ascii "data") ≠ .array items) →
        fetchCategories stringOf (.response true body) = []) ∧
      (∀ (bodyFields : List (JSString × JSValue)) (items : List JSValue),
        fieldOf (.object bodyFields) (ascii "data") = .array items →
          (∃ entry ∈ items, isNullish entry = true) →
          fetchCategories stringOf (.response true (.object bodyFields)) = []) ∧
      ∀ (bodyFields : List (JSString × JSValue)) (items : List JSValue),
        fieldOf (.object bodyFields) (ascii "data") = .array items →
          (∀ entry ∈ items, isNullish entry = false) →
          fetchCategories stringOf (.response true (.object bodyFields)) =
            titledCategories stringOf items := by
  refine ⟨?_, ?_, ?_, ?_, ?_, rfl, fun _ => rfl, fetchCategories_of_no_array stringOf,
    fetchCategories_of_nullish_item stringOf, ?_⟩
  · intro hne
    exact finish_of_genres stringOf seriesId _ rest searchResult item _ _ copyrightText base
      hsearch hbase (genres_of_nonempty stringOf _ _ hne)
  · intro hnil htc
    rw [hnil]
    exact finish_of_genres stringOf seriesId _ rest searchResult item _ _ copyrightText base
      hsearch hbase (genres_of_no_categories stringOf fields htc)
  · intro hnil cats htc hcats
    rw [hnil]
    exact finish_of_genres stringOf seriesId _ rest searchResult item _ _ copyrightText base
      hsearch hbase (genres_of_categories stringOf fields cats htc hcats)
  · intro hnil cats htc hcats
    rw [hnil]
    exact finish_of_genres_error stringOf seriesId _ rest searchResult item _ copyrightText _
      hsearch (genres_of_nullish_category stringOf fields cats htc hcats)
  · intro result world token hfin hlogin hid hcms hsnap hcat hcopy
    apply handleCrunchyroll_direct toLowerCase stringOf world seriesId token _ searchResult
      result hlogin hid hcms hsnap
    rw [hcat, hcopy]
    exact hfin
  · intro bodyFields items hdata hitems
    exact fetchCategories_of_items stringOf bodyFields items hdata hitems

/-- C13 (witness): on the sample record, whose images and awards are read without a throw,
a category response with two titled items gives those two titles as genres; a failed
category fetch gives the two names found in `tenant_categories`, and `handleCrunchyroll`
answers with status 200. -/
theorem genres_reconciliation_witness :
    searchItemOf .null (ascii "GRMG8ZQZR") = .ok .null ∧
      fetchSeriesData.assemble sampleStringOf (ascii "GRMG8ZQZR") (.object sampleRecordFields)
        .null [] (ascii "N/A") = .ok sampleBase ∧
      fetchCategories sampleStringOf (.response true sampleCategoryBody) =
        [ascii "Action", ascii "Sci'Fi"] ∧
      fetchSeriesData.finish sampleStringOf (ascii "GRMG8ZQZR") .null
          (some [.object sampleRecordFields])
          (fetchCategories sampleStringOf (.response true sampleCategoryBody)) (ascii "N/A") =
        .ok (.record { sampleBase with genres := [ascii "Action", ascii "Sci'Fi"] }) ∧
      fetchCategories sampleStringOf .failed = [] ∧
      (∀ cat ∈ sampleCategories, isNullish cat = false) ∧
      fetchSeriesData.finish sampleStringOf (ascii "GRMG8ZQZR") .null
          (some [.object sampleRecordFields]) (fetchCategories sampleStringOf .failed)
          (ascii "N/A") =
        .ok (.record { sampleBase with genres := [ascii "action", ascii "sci fi"] }) ∧
      handleCrunchyroll asciiToLowerCase sampleStringOf sampleUpstream (ascii "/")
          (some (ascii "GRMG8ZQZR")) =
        { status := 200,
          body := .result (.record { sampleBase with genres := [ascii "action", ascii "sci fi"] }) } := by
  have hsearch : searchItemOf .null (ascii "GRMG8ZQZR") = .ok .null := rfl
  have hbase : fetchSeriesData.assemble sampleStringOf (ascii "GRMG8ZQZR")
      (.object sampleRecordFields) .null [] (ascii "N/A") = .ok sampleBase := rfl
  have htitles : fetchCategories sampleStringOf (.response true sampleCategoryBody) =
      [ascii "Action", ascii "Sci'Fi"] := by decide
  have hcats : ∀ cat ∈ sampleCategories, isNullish cat = false := by decide
  have hderived : derivedGenres sampleStringOf sampleCategories =
      [ascii "action", ascii "sci fi"] := by decide
  have hok := genres_reconciliation asciiToLowerCase sampleStringOf (ascii "GRMG8ZQZR")
    sampleRecordFields [] .null .null (.response true sampleCategoryBody) (ascii "N/A")
    sampleBase hsearch hbase
  have hfail := genres_reconciliation asciiToLowerCase sampleStringOf (ascii "GRMG8ZQZR")
    sampleRecordFields [] .null .null .failed (ascii "N/A") sampleBase hsearch hbase
  have h1 := hok.1 (by rw [htitles]; decide)
  rw [htitles] at h1
  have h2 := hfail.2.2.1 rfl sampleCategories rfl hcats
  rw [hderived] at h2
  refine ⟨hsearch, hbase, htitles, ?_, rfl, hcats, h2, ?_⟩
  · rw [htitles]
    exact h1
  · exact hfail.2.2.2.2.1 _ sampleUpstream (ascii "token") h2 rfl (by decide) rfl rfl rfl rfl

theorem sanitizeList_of_falsy (v : JSValue) (h : truthy v = false) : sanitizeList v = [] := by
  simp [sanitizeList, h]

theorem sanitizeList_of_array (items : List JSValue) : sanitizeList (.array items) = items := by
  simp [sanitizeList, truthy]

theorem sanitizeList_of_other (v : JSValue) (h : truthy v = true)
    (harr : ∀ items, v ≠ .array items) : sanitizeList v = [v] := by
  cases v with
  | array items => exact absurd rfl (harr items)
  | undefined => simp [sanitizeList, h]
  | null => simp [sanitizeList, h]
  | bool b => simp [sanitizeList, h]
  | number x => simp [sanitizeList, h]
  | bigint n => simp [sanitizeList, h]
  | string s => simp [sanitizeList, h]
  | object fields => simp [sanitizeList, h]

/-- C11: `sanitizeList` returns a list for every value: the empty list for a falsy value
(`null`, `undefined`, `0`, `""`, `false` among them), the items of an array unchanged, and
the one-element list `[v]` for any other value `v`. -/
theorem sanitizeList_spec (v : JSValue) :
    (truthy v = false → sanitizeList v = []) ∧
      (∀ items, v = .array items → sanitizeList v = items) ∧
      (truthy v = true → (∀ items, v ≠ .array items) → sanitizeList v = [v]) ∧
      sanitizeList .null = [] ∧ sanitizeList .undefined = [] ∧
      sanitizeList (.number (.finite 0)) = [] ∧ sanitizeList (.string []) = [] ∧
      sanitizeList (.bool false) = [] := by
  refine ⟨sanitizeList_of_falsy v, ?_, sanitizeList_of_other v, ?_, ?_, ?_, ?_, ?_⟩
  · rintro items rfl
    exact sanitizeList_of_array items
  · exact sanitizeList_of_falsy _ rfl
  · exact sanitizeList_of_falsy _ rfl
  · exact sanitizeList_of_falsy _ (by simp [truthy])
  · exact sanitizeList_of_falsy _ rfl
  · exact sanitizeList_of_falsy _ rfl

/-- C11 (witness): the bare string `en-US` becomes the list of that one string, and an array
of two strings comes back as it is. -/
theorem sanitizeList_spec_witness :
    truthy (.string (ascii "en-US")) = true ∧
      (∀ items, JSValue.string (ascii "en-US") ≠ .array items) ∧
      sanitizeList (.string (ascii "en-US")) = [.string (ascii "en-US")] ∧
      sanitizeList (.array [.string (ascii "en-US"), .string (ascii "ja-JP")]) =
        [.string (ascii "en-US"), .string (ascii "ja-JP")] := by
  have ht : truthy (.string (ascii "en-US")) = true := by decide
  have ha : ∀ items, JSValue.string (ascii "en-US") ≠ .array items := by
    intro items h
    cases h
  exact ⟨ht, ha, (sanitizeList_spec (.string (ascii "en-US"))).2.2.1 ht ha,
    (sanitizeList_spec (.array [.string (ascii "en-US"), .string (ascii "ja-JP")])).2.1 _ rfl⟩

theorem handleCrunchyroll_root_status (toLowerCase : JSString → JSString)
    (stringOf : JSValue → JSString) (world : Upstream) (q : Option JSString) :
    (handleCrunchyroll toLowerCase stringOf world (ascii "/") q).status = 200 ∨
      (handleCrunchyroll toLowerCase stringOf world (ascii "/") q).status = 500 := by
  unfold handleCrunchyroll
  simp only [if_true]
  cases q with
  | none => exact Or.inl rfl
  | some query =>
    simp only
    by_cases hq : query = []
    · rw [if_pos hq]; exact Or.inl rfl
    · rw [if_neg hq]
      cases world.login with
      | error e => exact Or.inr rfl
      | ok token =>
        simp only
        cases fetchSeriesData toLowerCase stringOf world query with
        | error e => exact Or.inr rfl
        | ok result => exact Or.inl rfl

/-- C12 (failing inputs): when the search finds nothing and the slug page is not a series
page, and when the series request for an identifier has no record, `handleCrunchyroll`
answers with status 200 and the error object as body; on the path `/` its status is never
404, whatever the requests answer. -/
theorem handleCrunchyroll_not_found_is_200 :
    handleCrunchyroll asciiToLowerCase sampleStringOf emptyUpstream (ascii "/")
        (some (ascii "zzzz")) =
        { status := 200, body := .result (.error (ascii "Series not found") none) } ∧
      handleCrunchyroll asciiToLowerCase sampleStringOf emptyUpstream (ascii "/")
        (some (ascii "GY9PJ5KWR")) =
        { status := 200, body := .result (.error (ascii "Series details not found") none) } ∧
      ∀ (toLowerCase : JSString → JSString) (stringOf : JSValue → JSString) (world : Upstream)
        (q : Option JSString),
        (handleCrunchyroll toLowerCase stringOf world (ascii "/") q).status ≠ 404 := by
  refine ⟨rfl, rfl, ?_⟩
  intro toLowerCase stringOf world q h
  rcases handleCrunchyroll_root_status toLowerCase stringOf world q with h1 | h1
  · rw [h1] at h; cases h
  · rw [h1] at h; cases h

/-! ## Evaluations of the helpers of the record -/

theorem parseIntText_of_digits (text s digits : JSString)
    (hs : text.dropWhile isSpace = s) (hminus : s.head? ≠ some 45) (hplus : s.head? ≠ some 43)
    (hd : s.takeWhile isDigit = digits) (hne : digits ≠ [])
    (hle : decimalValue digits ≤ 2 ^ 53) :
    parseIntText text = .finite (decimalValue digits) := by
  simp only [parseIntText, hs, hminus, hplus, or_self, if_false, hd, hne, decide_False,
    roundBinary64_of_le _ hle, Bool.false_eq_true]

theorem parseIntText_of_minus (text s digits : JSString)
    (hs : text.dropWhile isSpace = 45 :: s) (hd : s.takeWhile isDigit = digits)
    (hne : digits ≠ []) (hle : decimalValue digits ≤ 2 ^ 53) :
    parseIntText text = .finite (-(decimalValue digits : ℚ)) := by
  simp only [parseIntText, hs, List.head?_cons, true_or, if_true, List.tail_cons, hd, hne,
    if_false, decide_True, roundBinary64_of_le _ hle]

theorem parseIntText_of_no_digit (text : JSString)
    (h : ((if (text.dropWhile isSpace).head? = some 45 ∨ (text.dropWhile isSpace).head? = some 43
      then (text.dropWhile isSpace).tail else text.dropWhile isSpace).takeWhile isDigit) = []) :
    parseIntText text = .nan := by
  simp only [parseIntText, h, if_true]

theorem parseIntText_samples :
    parseIntText (ascii "  -12px") = .finite (-12) ∧ parseIntText (ascii "24") = .finite 24 ∧
      parseIntText (ascii "- 5") = .nan ∧ parseIntText (ascii "abc") = .nan ∧
      parseIntText [] = .nan := by
  refine ⟨?_, ?_, parseIntText_of_no_digit _ (by decide), parseIntText_of_no_digit _ (by decide),
    parseIntText_of_no_digit _ (by decide)⟩
  · rw [parseIntText_of_minus (ascii "  -12px") (ascii "12px") (ascii "12") (by decide)
      (by decide) (by decide) (by decide)]
    have : decimalValue (ascii "12") = 12 := by decide
    rw [this]
    norm_num
  · rw [parseIntText_of_digits (ascii "24") (ascii "24") (ascii "24") (by decide) (by decide)
      (by decide) (by decide) (by decide) (by decide)]
    have : decimalValue (ascii "24") = 24 := by decide
    rw [this]
    norm_num

theorem sanitizeInteger_samples :
    sanitizeInteger sampleStringOf .null (.finite 0) = .finite 0 ∧
      sanitizeInteger sampleStringOf .undefined (.finite 0) = .finite 0 ∧
      sanitizeInteger sampleStringOf (.string (ascii "abc")) (.finite 0) = .finite 0 ∧
      sanitizeInteger sampleStringOf (.string (ascii "24")) (.finite 0) = .finite 24 := by
  refine ⟨rfl, rfl, ?_, ?_⟩
  · simp only [sanitizeInteger, toJSString, parseIntText_samples.2.2.2.1]
  · simp only [sanitizeInteger, toJSString, parseIntText_samples.2.1]

theorem searchItemOf_samples :
    searchItemOf sampleSnapshot (ascii "GRMG8ZQZR") =
        .ok (.object [(ascii "id", .string (ascii "GRMG8ZQZR")), (ascii "rating", .object [])]) ∧
      searchItemOf sampleSnapshot (ascii "GY9PJ5KWR") =
        .ok (.object [(ascii "id", .string (ascii "G6NQ5DWZ6"))]) ∧
      searchItemOf (.object [(ascii "data", .array [.null])]) (ascii "GRMG8ZQZR") =
        .error .typeError ∧
      searchItemOf (.object [(ascii "data", .array [.object [(ascii "items", .array [.null])]])])
        (ascii "GRMG8ZQZR") = .error .typeError ∧
      searchItemOf (.object [(ascii "data", .string (ascii "x"))]) (ascii "GRMG8ZQZR") =
        .error .typeError ∧
      searchItemOf (.object [(ascii "data", .array [])]) (ascii "GRMG8ZQZR") = .ok .undefined ∧
      searchItemOf (.object []) (ascii "GRMG8ZQZR") = .ok .null ∧
      searchItemOf (candidateSnapshot onePiece) onePiece.id = .ok onePiece.toValue :=
  ⟨rfl, rfl, rfl, rfl, rfl, rfl, rfl, rfl⟩

theorem fetchCopyright_samples :
    fetchCopyright sampleStringOf .failed = ascii "N/A" ∧
      fetchCopyright sampleStringOf (.response false (.object [])) = ascii "N/A" ∧
      fetchCopyright sampleStringOf (.response true .null) = ascii "N/A" ∧
      fetchCopyright sampleStringOf (.response true (.object [])) = ascii "N/A" ∧
      fetchCopyright sampleStringOf (.response true (.object
        [(ascii "shortCopyright", .string (ascii "(c) Toei"))])) = ascii "(c) Toei" ∧
      fetchCopyright sampleStringOf (.response true (.object
        [(ascii "longCopyright", .string (ascii " (c)  Toei Animation ")),
         (ascii "shortCopyright", .string (ascii "(c) Toei"))])) = ascii "(c) Toei Animation" := by
  decide

theorem getBestImage_samples :
    getBestImage (.object []) (ascii "poster_wide") = .ok .null ∧
      getBestImage (.object [(ascii "poster_wide", .array [])]) (ascii "poster_wide") =
        .ok .null ∧
      getBestImage (.object [(ascii "poster_wide", .string (ascii "x"))]) (ascii "poster_wide") =
        .error .typeError ∧
      getBestImage (.object [(ascii "poster_wide", .array [.array
          [.object [(ascii "source", .string (ascii "https://img.example/1.jpg"))],
           .object [(ascii "source", .string (ascii " https://img.example/2.jpg "))]]])])
        (ascii "poster_wide") = .ok (.string (ascii "https://img.example/2.jpg")) ∧
      getBestImage (.object [(ascii "poster_wide", .array
          [.object [(ascii "source", .string (ascii "/relative.jpg"))]])])
        (ascii "poster_wide") = .ok .null ∧
      getBestImage (.object [(ascii "poster_wide", .array [.null])]) (ascii "poster_wide") =
        .ok .null :=
  ⟨rfl, rfl, rfl, rfl, rfl, rfl⟩

theorem awardsOf_samples :
    awardsOf sampleStringOf (.object []) = .ok [] ∧
      awardsOf sampleStringOf (.object [(ascii "awards", .array [.null])]) =
        .error .typeError ∧
      awardsOf sampleStringOf (.object [(ascii "awards", .string (ascii "x"))]) =
        .error .typeError ∧
      awardsOf sampleStringOf (.object [(ascii "awards", .array
        [.object [(ascii "text", .string (ascii " Best  Drama ")),
                  (ascii "icon_url", .string (ascii "https://img.example/a.png"))]])]) =
        .ok [{ text := ascii "Best Drama", icon_url := .string (ascii "https://img.example/a.png"),
               is_winner := false }] :=
  ⟨rfl, rfl, rfl, rfl⟩

theorem sampleBase_fields :
    sampleBase.id = ascii "GRMG8ZQZR" ∧ sampleBase.title = ascii "One Piece" ∧
      sampleBase.slug = [] ∧ sampleBase.genres = [] ∧ sampleBase.copyright = ascii "N/A" ∧
      sampleBase.banner_backdrop =
        ascii "https://imgsrv.crunchyroll.com/cdn-cgi/image/fit=cover,format=auto,quality=100,width=1920/keyart/GRMG8ZQZR-backdrop_wide" ∧
      sampleBase.episode_count = .finite 0 ∧ sampleBase.release_year = .null ∧
      sampleBase.is_dubbed = false ∧ sampleBase.audio = [] ∧
      sampleBase.powered_by = ascii "@Blaze_Updatez" ∧
      sampleBase.created_by = ascii "@Bharath_boy" :=
  ⟨by decide, by decide, by decide, rfl, by decide, by decide, rfl, rfl, rfl, rfl, by decide,
    by decide⟩

theorem handleCrunchyroll_status_samples :
    (handleCrunchyroll asciiToLowerCase sampleStringOf
        { sampleUpstream with snapshot := fun _ => .error (.failure (ascii "network")) }
        (ascii "/") (some (ascii "GRMG8ZQZR"))).status = 500 ∧
      (handleCrunchyroll asciiToLowerCase sampleStringOf
        { sampleUpstream with cms := fun _ => .error (.failure (ascii "network")) }
        (ascii "/") (some (ascii "GRMG8ZQZR"))).status = 500 ∧
      (handleCrunchyroll asciiToLowerCase sampleStringOf
        { sampleUpstream with cms := fun _ => .ok (some [.object [(ascii "awards", .array [.null])]]) }
        (ascii "/") (some (ascii "GRMG8ZQZR"))).status = 500 ∧
      (handleCrunchyroll asciiToLowerCase sampleStringOf
        { sampleUpstream with cms := fun _ => .ok (some [.null]) }
        (ascii "/") (some (ascii "GRMG8ZQZR"))).status = 500 ∧
      (handleCrunchyroll asciiToLowerCase sampleStringOf
        { sampleUpstream with login := .error (.failure (ascii "Crunchyroll login failed")) }
        (ascii "/") (some (ascii "GRMG8ZQZR"))).status = 500 ∧
      (handleCrunchyroll asciiToLowerCase sampleStringOf sampleUpstream (ascii "/series")
        (some (ascii "GRMG8ZQZR"))).status = 404 ∧
      (handleCrunchyroll asciiToLowerCase sampleStringOf sampleUpstream (ascii "/") none).status =
        200 := by
  decide

theorem rating_samples :
    ratingValue sampleRatedItem (ascii "average") = .string (ascii "4.9") ∧
      ratingValue sampleRatedItem (ascii "total") = .string (ascii "N/A") ∧
      ratingBreakdown sampleStringOf sampleRatedItem =
        [(ascii "5s", ascii "1.1K"), (ascii "4s", ascii "0")] ∧
      ratingValue .null (ascii "average") = .string (ascii "N/A") ∧
      ratingBreakdown sampleStringOf .null = [] ∧
      ratingValue onePiece.toValue (ascii "total") = .string (ascii "N/A") ∧
      sampleBase.rating_stars = .string (ascii "N/A") ∧ sampleBase.rating_breakdown = [] :=
  ⟨rfl, rfl, by decide, rfl, rfl, rfl, rfl, rfl⟩

end AnimeProxy
